import Mathlib

/-!
ffmpeg-playground: the frame writer, the packet decoder and the driver loop.

A shallow embedding of `src/main.c`.

* C `int` values are `Int`; where the source computes with them
  (`i * wrap` in `save_gray_frame`) the result must stay inside the 32-bit
  range, otherwise the operation has no defined result and the model
  returns `none`.
* The media library (container demuxer, decoder) is an external collaborator:
  it is a parameter of the model (`Decoder`, `Env`), never a fixed behaviour.
* Output is recorded as a trace of events (`Event`): every library call that
  matters, every `save_gray_frame` call and every diagnostic on `stderr`.
  Messages on `stdout` are progress logging only and are left out.
-/

namespace FFmpegPlayground

/-! ## Machine integers -/

/-- Largest value of a C `int` (32 bits). -/
def INT_MAX : Int := 2147483647

/-- Smallest value of a C `int` (32 bits). -/
def INT_MIN : Int := -2147483648

/-- Signed `int` multiplication: defined only when the product is
representable, as in C. -/
def int_mul (a b : Int) : Option Int :=
  if INT_MIN ≤ a * b ∧ a * b ≤ INT_MAX then some (a * b) else none

/-! ## Frame Writer (`save_gray_frame`, main.c 206-220) -/

/-- A byte buffer in memory (`unsigned char *buf`): `size` addressable bytes,
`byte i` the byte at offset `i`. -/
structure Buf where
  size : Nat
  byte : Nat → UInt8

/-- Bytes of an ASCII text, as `fprintf` puts them in the stream. -/
def asciiBytes (s : String) : List UInt8 :=
  s.toList.map (fun ch => ch.toNat.toUInt8)

/-- Model of `fprintf(f, "P5\n%d %d\n%d\n", xsize, ysize, 255)`: `%d` prints
an `int` in decimal, with a leading minus sign when negative. -/
def pgm_header (xsize ysize : Int) : List UInt8 :=
  asciiBytes ("P5\n" ++ toString xsize ++ " " ++ toString ysize ++ "\n"
    ++ toString (255 : Int) ++ "\n")

/-- Model of `fwrite(buf + off, 1, xsize, f)`: the `xsize` bytes starting at
offset `off`. The count is converted to `size_t`, so a negative `xsize` is a
huge count; reading outside the buffer has no defined result. -/
def fwrite_at (buf : Buf) (off xsize : Int) : Option (List UInt8) :=
  if 0 ≤ off ∧ 0 ≤ xsize ∧ off + xsize ≤ (buf.size : Int) then
    some ((List.range xsize.toNat).map (fun c => buf.byte (off.toNat + c)))
  else none

/-- The loop `for (int i = 0; i < ysize; i++) fwrite(buf + i * wrap, 1, xsize, f)`
with `n` iterations left and loop counter `i`. -/
def save_rows (buf : Buf) (wrap xsize : Int) : Nat → Int → Option (List UInt8)
  | 0, _ => some []
  | n + 1, i =>
    match int_mul i wrap with
    | none => none
    | some off =>
      match fwrite_at buf off xsize with
      | none => none
      | some row =>
        match save_rows buf wrap xsize n (i + 1) with
        | none => none
        | some rest => some (row ++ rest)

/-- Model of `save_gray_frame(buf, wrap, xsize, ysize, filename)`: the bytes
written to the file, `none` when the C code has no defined result. The loop
runs `ysize` times when `ysize` is positive and not at all otherwise. The
file is taken to open and to accept every write. -/
def save_gray_frame (buf : Buf) (wrap xsize ysize : Int) : Option (List UInt8) :=
  match save_rows buf wrap xsize ysize.toNat 0 with
  | none => none
  | some payload => some (pgm_header xsize ysize ++ payload)

/-! ## The media library, as far as `main.c` uses it -/

/-- `AVERROR(EAGAIN)`: the negated `EAGAIN` of `asm-generic/errno-base.h`. -/
def AVERROR_EAGAIN : Int := -11

/-- `AVERROR_EOF` of `libavutil/error.h`: the negated tag `'E','O','F',' '`. -/
def AVERROR_EOF : Int := -541478725

/-- Media type of a stream (`enum AVMediaType`). -/
inductive AVMediaType where
  | UNKNOWN | VIDEO | AUDIO | DATA | SUBTITLE | ATTACHMENT
deriving DecidableEq, Repr

/-- The fields of `AVCodecParameters` (`streams[i]->codecpar`) that `main`
reads. -/
structure AVCodecParameters where
  codec_type : AVMediaType
  codec_id : Nat
  width : Int
  height : Int
deriving DecidableEq, Repr

/-- A registered decoder, as returned by `avcodec_find_decoder`. -/
structure AVCodec where
  id : Nat
deriving DecidableEq, Repr

/-- A compressed packet: the stream it belongs to, its timestamp and an
identifier standing for its payload. -/
structure AVPacket where
  stream_index : Int
  pts : Int
  data : Nat
deriving DecidableEq, Repr

/-- The fields of a decoded `AVFrame` that `decode_packet` passes on:
`data[0]`, `linesize[0]`, `width`, `height`, `format`. -/
structure AVFrame where
  data0 : Buf
  linesize0 : Int
  width : Int
  height : Int
  format : Int

/-- The decoder behind an `AVCodecContext` whose state has type `σ`:
any state machine at all. `avcodec_receive_frame` returns the response, the
frame it filled in and the next state. -/
structure Decoder (σ : Type) where
  avcodec_send_packet : σ → AVPacket → Int × σ
  avcodec_receive_frame : σ → Int × AVFrame × σ
  frame_number : σ → Int

/-! ## Traces -/

/-- The diagnostics `main.c` prints on `stderr`, one per `fprintf(stderr, ...)`. -/
inductive Diag where
  | media_file_must_be_provided
  | alloc_format_context
  | open_file
  | stream_information
  | unsupported_codec
  | no_video_stream
  | alloc_codec_context
  | copy_codec_params
  | open_codec
  | alloc_frame
  | alloc_packet
  | sending_packet (response : Int)
  | receiving_frame (response : Int)
deriving DecidableEq, Repr

/-- What a run does, in order. -/
inductive Event where
  | stderr (d : Diag)
  | avcodec_alloc_context3 (codec : Option AVCodec)
  | av_read_frame (packet : Option AVPacket)
  | decode_packet (packet : AVPacket)
  | avcodec_send_packet (response : Int)
  | avcodec_receive_frame (response : Int)
  | save_gray_frame (filename : String) (frame : AVFrame)
  | decode_packet_returned (response : Int)

/-- Is the event a `save_gray_frame` call? -/
def Event.isSave : Event → Bool
  | .save_gray_frame _ _ => true
  | _ => false

/-- Is the event an invocation of `decode_packet`? -/
def Event.isDecode : Event → Bool
  | .decode_packet _ => true
  | _ => false

/-- Is the event a call of `av_read_frame`? -/
def Event.isRead : Event → Bool
  | .av_read_frame _ => true
  | _ => false

/-- Is the event a call of `avcodec_alloc_context3`? -/
def Event.isAlloc : Event → Bool
  | .avcodec_alloc_context3 _ => true
  | _ => false

/-- Is the event the return of a `decode_packet` call? -/
def Event.isReturn : Event → Bool
  | .decode_packet_returned _ => true
  | _ => false

/-- Events that occur inside `decode_packet`: library calls on the decoder,
`save_gray_frame` calls and diagnostics. -/
def Event.isInner : Event → Bool
  | .stderr _ => true
  | .avcodec_send_packet _ => true
  | .avcodec_receive_frame _ => true
  | .save_gray_frame _ _ => true
  | _ => false

/-- Events that occur before the driver loop: diagnostics and the decoder
allocation. -/
def Event.isSetup : Event → Bool
  | .stderr _ => true
  | .avcodec_alloc_context3 _ => true
  | _ => false

/-- Names of the files written, in order: one per `save_gray_frame` call. -/
def savedFiles : List Event → List String
  | [] => []
  | .save_gray_frame name _ :: t => name :: savedFiles t
  | _ :: t => savedFiles t

/-- Packets handed to `decode_packet`, in order. -/
def decodedPackets : List Event → List AVPacket
  | [] => []
  | .decode_packet p :: t => p :: decodedPackets t
  | _ :: t => decodedPackets t

/-- Responses of the `avcodec_receive_frame` calls, in order. -/
def receiveResponses : List Event → List Int
  | [] => []
  | .avcodec_receive_frame r :: t => r :: receiveResponses t
  | _ :: t => receiveResponses t

/-- Return values of the `decode_packet` calls that returned, in order. -/
def decodeReturns : List Event → List Int
  | [] => []
  | .decode_packet_returned r :: t => r :: decodeReturns t
  | _ :: t => decodeReturns t

/-- The trace without its `av_read_frame` events. -/
def withoutReads (tr : List Event) : List Event :=
  tr.filter (fun e => !e.isRead)

/-! ## Packet Decoder (`decode_packet`, main.c 156-204) -/

/-- Result of running `decode_packet`: the value returned (`none` when the
drain loop is still running after the given number of iterations), the
events, and the decoder state left behind. -/
structure Run (σ : Type) where
  ret : Option Int
  trace : List Event
  ctx : σ

/-- Put events in front of a run. -/
def Run.after {σ : Type} (evs : List Event) (r : Run σ) : Run σ :=
  ⟨r.ret, evs ++ r.trace, r.ctx⟩

/-- Model of `snprintf(buf, size, ...)`: at most `size - 1` characters of
the formatted text are stored. -/
def snprintf (size : Nat) (text : String) : String :=
  String.mk (text.toList.take (size - 1))

/-- The file name built at main.c 185-187:
`snprintf(frame_filename, 1024, "%s-%d.pgm", "frame", codec_ctx->frame_number)`. -/
def frame_filename (frame_number : Int) : String :=
  snprintf 1024 ("frame" ++ "-" ++ toString frame_number ++ ".pgm")

/-- The drain loop `while (response >= 0) ...` of `decode_packet`
(main.c 166-203), run for at most `fuel` iterations. -/
def drain {σ : Type} (D : Decoder σ) : Nat → Int → σ → Run σ
  | 0, response, ctx =>
    if 0 ≤ response then ⟨none, [], ctx⟩ else ⟨some 0, [], ctx⟩
  | fuel + 1, response, ctx =>
    if 0 ≤ response then
      let res := D.avcodec_receive_frame ctx
      let response1 := res.1
      let frame := res.2.1
      let ctx1 := res.2.2
      if response1 = AVERROR_EAGAIN ∨ response1 = AVERROR_EOF then
        ⟨some 0, [.avcodec_receive_frame response1], ctx1⟩
      else if response1 < 0 then
        ⟨some response1,
          [.avcodec_receive_frame response1, .stderr (.receiving_frame response1)], ctx1⟩
      else
        Run.after
          [.avcodec_receive_frame response1,
           .save_gray_frame (frame_filename (D.frame_number ctx1)) frame]
          (drain D fuel response1 ctx1)
    else ⟨some 0, [], ctx⟩

/-- Model of `decode_packet(packet, codec_ctx, frame)` (main.c 156-204). -/
def decode_packet {σ : Type} (D : Decoder σ) (fuel : Nat) (packet : AVPacket)
    (ctx : σ) : Run σ :=
  let res := D.avcodec_send_packet ctx packet
  let response := res.1
  let ctx1 := res.2
  if response < 0 then
    ⟨some response,
      [.avcodec_send_packet response, .stderr (.sending_packet response)], ctx1⟩
  else
    Run.after [.avcodec_send_packet response] (drain D fuel response ctx1)

/-! ## Pipeline Driver (`main`, main.c 20-154) -/

/-- Variables set by the stream enumeration loop (main.c 52-55). -/
structure Selection where
  codec : Option AVCodec
  codec_parameters : Option AVCodecParameters
  video_stream_index : Int
deriving DecidableEq, Repr

/-- Values before the loop: `codec = NULL`, `codec_parameters = NULL`,
`video_stream_index = -1`. -/
def Selection.init : Selection := ⟨none, none, -1⟩

/-- The stream enumeration loop (main.c 56-96) from index `i` on, over the
remaining streams, each given by its `codecpar`. Returns the variables after
the loop and the diagnostics printed. -/
def enumerate_streams (find_decoder : Nat → Option AVCodec) :
    List AVCodecParameters → Int → Selection → Selection × List Event
  | [], _, sel => (sel, [])
  | local_codec_parameters :: rest, i, sel =>
    match find_decoder local_codec_parameters.codec_id with
    | none =>
      let r := enumerate_streams find_decoder rest (i + 1) sel
      (r.1, .stderr .unsupported_codec :: r.2)
    | some local_codec =>
      if local_codec_parameters.codec_type = .VIDEO then
        if sel.video_stream_index = -1 then
          enumerate_streams find_decoder rest (i + 1)
            ⟨some local_codec, some local_codec_parameters, i⟩
        else enumerate_streams find_decoder rest (i + 1) sel
      else enumerate_streams find_decoder rest (i + 1) sel

/-- Everything outside `main.c` that a run depends on. `argv` is the
argument vector (`argc` its length); a library call that can fail is given
by its result; `packets` are the packets `av_read_frame` delivers, in
order, before it reports the end of the input. -/
structure Env (σ : Type) where
  argv : List String
  avformat_alloc_context : Bool
  avformat_open_input : Int
  avformat_find_stream_info : Int
  streams : List AVCodecParameters
  avcodec_find_decoder : Nat → Option AVCodec
  avcodec_alloc_context3 : Option AVCodec → Option σ
  avcodec_parameters_to_context : σ → Option AVCodecParameters → Int × σ
  avcodec_open2 : σ → Option AVCodec → Int × σ
  av_frame_alloc : Bool
  av_packet_alloc : Bool
  packets : List AVPacket
  decoder : Decoder σ

/-- Outcome of main.c 20-132: a fatal failure (`return -1`) or a decoder
ready to run. -/
inductive Setup (σ : Type) where
  | failed (trace : List Event)
  | ready (video_stream_index : Int) (codec_ctx : σ) (trace : List Event)

/-- Model of main.c 20-132: argument check, container open, stream probe,
stream selection, decoder set-up, frame and packet allocation. -/
def setup {σ : Type} (E : Env σ) : Setup σ :=
  if E.argv.length < 2 then .failed [.stderr .media_file_must_be_provided]
  else if !E.avformat_alloc_context then .failed [.stderr .alloc_format_context]
  else if E.avformat_open_input ≠ 0 then .failed [.stderr .open_file]
  else if E.avformat_find_stream_info < 0 then .failed [.stderr .stream_information]
  else
    let en := enumerate_streams E.avcodec_find_decoder E.streams 0 Selection.init
    let sel := en.1
    if sel.video_stream_index = -1 then .failed (en.2 ++ [.stderr .no_video_stream])
    else
      let tr := en.2 ++ [.avcodec_alloc_context3 sel.codec]
      match E.avcodec_alloc_context3 sel.codec with
      | none => .failed (tr ++ [.stderr .alloc_codec_context])
      | some ctx0 =>
        let r1 := E.avcodec_parameters_to_context ctx0 sel.codec_parameters
        if r1.1 < 0 then .failed (tr ++ [.stderr .copy_codec_params])
        else
          let r2 := E.avcodec_open2 r1.2 sel.codec
          if r2.1 < 0 then .failed (tr ++ [.stderr .open_codec])
          else if !E.av_frame_alloc then .failed (tr ++ [.stderr .alloc_frame])
          else if !E.av_packet_alloc then .failed (tr ++ [.stderr .alloc_packet])
          else .ready sel.video_stream_index r2.2 tr

/-- Events of the set-up phase. -/
def Setup.trace {σ : Type} : Setup σ → List Event
  | .failed tr => tr
  | .ready _ _ tr => tr

/-- State of the driver loop when it is left: whether it was left at all
(`finished = false`: a `decode_packet` call is still running), the events,
`packets_to_process` and the decoder state. -/
structure LoopRun (σ : Type) where
  finished : Bool
  trace : List Event
  packets_to_process : Int
  ctx : σ

/-- Put events in front of a loop run. -/
def LoopRun.after {σ : Type} (evs : List Event) (r : LoopRun σ) : LoopRun σ :=
  ⟨r.finished, evs ++ r.trace, r.packets_to_process, r.ctx⟩

/-- The driver loop `while (av_read_frame(fmt_ctx, packet) >= 0) ...`
(main.c 137-151) over the packets still to come. -/
def read_loop {σ : Type} (D : Decoder σ) (fuel : Nat) (video_stream_index : Int) :
    List AVPacket → Int → σ → LoopRun σ
  | [], packets_to_process, ctx =>
    ⟨true, [.av_read_frame none], packets_to_process, ctx⟩
  | packet :: rest, packets_to_process, ctx =>
    if packet.stream_index = video_stream_index then
      let r := decode_packet D fuel packet ctx
      let tr := [.av_read_frame (some packet), .decode_packet packet] ++ r.trace
      match r.ret with
      | none => ⟨false, tr, packets_to_process, r.ctx⟩
      | some response =>
        if response < 0 then
          ⟨true, tr ++ [.decode_packet_returned response], packets_to_process, r.ctx⟩
        else if packets_to_process - 1 ≤ 0 then
          ⟨true, tr ++ [.decode_packet_returned response], packets_to_process - 1, r.ctx⟩
        else
          LoopRun.after (tr ++ [.decode_packet_returned response])
            (read_loop D fuel video_stream_index rest (packets_to_process - 1) r.ctx)
    else
      LoopRun.after [.av_read_frame (some packet)]
        (read_loop D fuel video_stream_index rest packets_to_process ctx)

/-- Exit status and events of a whole run; `ret = none` when the program is
still inside a drain loop after `fuel` iterations. -/
structure MainRun where
  ret : Option Int
  trace : List Event

/-- Model of `main` (main.c 20-154): set-up, then the driver loop with
`packets_to_process = 8`, then `return 0`. -/
def main {σ : Type} (E : Env σ) (fuel : Nat) : MainRun :=
  match setup E with
  | .failed tr => ⟨some (-1), tr⟩
  | .ready video_stream_index codec_ctx tr =>
    let l := read_loop E.decoder fuel video_stream_index E.packets 8 codec_ctx
    ⟨if l.finished then some 0 else none, tr ++ l.trace⟩

/-! ## Concrete inputs used to exercise the model -/

/-- Test buffer: byte `i` is `i mod 256`. -/
def rampBuf (size : Nat) : Buf := ⟨size, fun i => (i % 256).toUInt8⟩

/-- Test buffer of zero bytes. -/
def zeroBuf (size : Nat) : Buf := ⟨size, fun _ => 0⟩

/-- AVERROR_INVALIDDATA of `libavutil/error.h`: the negated tag
`'I','N','D','A'`. -/
def AVERROR_INVALIDDATA : Int := -1094995529

/-- State of the scripted test decoder: frames ready to be received,
whether the stream is damaged, and the running frame counter. -/
structure TestCtx where
  pending : Nat
  broken : Bool
  frame_number : Int
deriving DecidableEq, Repr

/-- The frame every test decoder hands out: a 3 x 2 image, stride 4. -/
def testFrame : AVFrame := ⟨rampBuf 7, 4, 3, 2, 0⟩

/-- Scripted test decoder. A packet with `data = 99` is rejected with
AVERROR_INVALIDDATA; one with `data = 98` makes one frame ready and damages
the stream, so that the request after that frame fails with `-5`; any other
packet makes `data` frames ready. Each frame received increments the frame
counter. -/
def testDecoder : Decoder TestCtx where
  avcodec_send_packet := fun ctx p =>
    if p.data = 99 then (AVERROR_INVALIDDATA, ctx)
    else if p.data = 98 then (0, ⟨ctx.pending + 1, true, ctx.frame_number⟩)
    else (0, ⟨ctx.pending + p.data, ctx.broken, ctx.frame_number⟩)
  avcodec_receive_frame := fun ctx =>
    match ctx.pending with
    | 0 => if ctx.broken then (-5, testFrame, ctx) else (AVERROR_EAGAIN, testFrame, ctx)
    | n + 1 => (0, testFrame, ⟨n, ctx.broken, ctx.frame_number + 1⟩)
  frame_number := fun ctx => ctx.frame_number

/-- Test decoder with at most one frame per packet: a packet makes one
frame ready when `data` is not zero, and replaces whatever was ready. -/
def oneFrameDecoder : Decoder TestCtx where
  avcodec_send_packet := fun ctx p =>
    (0, ⟨if p.data = 0 then 0 else 1, ctx.broken, ctx.frame_number⟩)
  avcodec_receive_frame := fun ctx =>
    match ctx.pending with
    | 0 => (AVERROR_EAGAIN, testFrame, ctx)
    | _ + 1 => (0, testFrame, ⟨0, ctx.broken, ctx.frame_number + 1⟩)
  frame_number := fun ctx => ctx.frame_number

/-- Test decoder state right after `avcodec_open2`. -/
def testCtx0 : TestCtx := ⟨0, false, 0⟩

/-- A video packet of stream `idx` carrying the script value `data`. -/
def pkt (idx : Int) (data : Nat) : AVPacket := ⟨idx, 0, data⟩

/-- Test environment: every library call succeeds, codec ids below 100 have
a decoder, and the decoder is `D`. -/
def testEnv (D : Decoder TestCtx) (streams : List AVCodecParameters)
    (packets : List AVPacket) : Env TestCtx where
  argv := ["main", "input.mp4"]
  avformat_alloc_context := true
  avformat_open_input := 0
  avformat_find_stream_info := 0
  streams := streams
  avcodec_find_decoder := fun id => if id < 100 then some ⟨id⟩ else none
  avcodec_alloc_context3 := fun _ => some testCtx0
  avcodec_parameters_to_context := fun ctx _ => (0, ctx)
  avcodec_open2 := fun ctx _ => (0, ctx)
  av_frame_alloc := true
  av_packet_alloc := true
  packets := packets
  decoder := D

/-- An audio stream followed by a video stream, both with a decoder. -/
def audioVideo : List AVCodecParameters :=
  [⟨AVMediaType.AUDIO, 1, 0, 0⟩, ⟨.VIDEO, 2, 640, 480⟩]

/-- An audio stream and a subtitle stream whose codec has no decoder. -/
def audioSubtitle : List AVCodecParameters :=
  [⟨AVMediaType.AUDIO, 1, 0, 0⟩, ⟨.SUBTITLE, 200, 0, 0⟩]

/-- Two video streams; only the second has a decoder. -/
def twoVideos : List AVCodecParameters :=
  [⟨.VIDEO, 100, 1920, 1080⟩, ⟨.VIDEO, 2, 640, 480⟩]

/-- Events of the test run in which the second of three video packets is
rejected, up to the return of the failing `decode_packet` call. -/
def rejectedSecondPacket : List Event :=
  [Event.avcodec_alloc_context3 (some ⟨2⟩),
   Event.av_read_frame (some (pkt 1 1)), Event.decode_packet (pkt 1 1),
   Event.avcodec_send_packet 0, Event.avcodec_receive_frame 0,
   Event.save_gray_frame "frame-1.pgm" testFrame,
   Event.avcodec_receive_frame AVERROR_EAGAIN, Event.decode_packet_returned 0,
   Event.av_read_frame (some (pkt 1 99)), Event.decode_packet (pkt 1 99),
   Event.avcodec_send_packet AVERROR_INVALIDDATA,
   Event.stderr (Diag.sending_packet AVERROR_INVALIDDATA)]

/-- Twelve packets alternating between stream 0 (audio) and stream 1
(video). -/
def mixedPackets : List AVPacket :=
  [pkt 0 1, pkt 1 1, pkt 0 1, pkt 1 1, pkt 0 1, pkt 1 0,
   pkt 0 1, pkt 1 1, pkt 0 1, pkt 1 1, pkt 0 1, pkt 1 1]

/-! ## Vocabulary of the properties -/

/-- Number of `decode_packet` calls that returned success: the video
packets processed. -/
def processedPackets (tr : List Event) : Nat :=
  ((decodeReturns tr).filter (fun r => decide (0 ≤ r))).length

/-- The packets of stream `video_stream_index`, in order. -/
def videoPackets (video_stream_index : Int) (packets : List AVPacket) : List AVPacket :=
  packets.filter (fun p => decide (p.stream_index = video_stream_index))

/-- Decoder state after `n` further `avcodec_receive_frame` calls. -/
def receive_n {σ : Type} (D : Decoder σ) : Nat → σ → σ
  | 0, ctx => ctx
  | n + 1, ctx => receive_n D n (D.avcodec_receive_frame ctx).2.2

/-- The names `frame-(c+1).pgm`, ..., `frame-(c+k).pgm`, in that order. -/
def frameNames (c : Int) (k : Nat) : List String :=
  (List.range k).map (fun i => "frame-" ++ toString (c + ((i + 1 : Nat) : Int)) ++ ".pgm")

/-- The decoder counts frames: each frame received increments the frame
counter by one, and neither a submission nor a request that yields no frame
changes it. -/
def CountsFrames {σ : Type} (D : Decoder σ) : Prop :=
  (∀ ctx p, D.frame_number (D.avcodec_send_packet ctx p).2 = D.frame_number ctx)
  ∧ (∀ ctx, 0 ≤ (D.avcodec_receive_frame ctx).1 →
      D.frame_number (D.avcodec_receive_frame ctx).2.2 = D.frame_number ctx + 1)
  ∧ (∀ ctx, (D.avcodec_receive_frame ctx).1 < 0 →
      D.frame_number (D.avcodec_receive_frame ctx).2.2 = D.frame_number ctx)

/-- The decoder never hands out two frames in a row: the request after a
frame yields none. -/
def OneFrameAtATime {σ : Type} (D : Decoder σ) : Prop :=
  ∀ ctx, 0 ≤ (D.avcodec_receive_frame ctx).1 →
    (D.avcodec_receive_frame (D.avcodec_receive_frame ctx).2.2).1 < 0

/-- The stream can be selected: it is video-typed and a decoder is
registered for its codec. -/
def selectable (find_decoder : Nat → Option AVCodec) (par : AVCodecParameters) : Prop :=
  par.codec_type = .VIDEO ∧ (find_decoder par.codec_id).isSome = true

instance (find_decoder : Nat → Option AVCodec) (par : AVCodecParameters) :
    Decidable (selectable find_decoder par) := by
  unfold selectable
  infer_instance

/-! ## Frame Writer: properties -/

theorem int_mul_natCast (a b : Nat) (h : a * b ≤ 2147483647) :
    int_mul (a : Int) (b : Int) = some ((a * b : Nat) : Int) := by
  have h1 : ((a : Int) * (b : Int)) = ((a * b : Nat) : Int) := by push_cast; rfl
  have h2 : ((a * b : Nat) : Int) ≤ 2147483647 := by exact_mod_cast h
  have h3 : (0 : Int) ≤ ((a * b : Nat) : Int) := Int.natCast_nonneg _
  unfold int_mul INT_MIN INT_MAX
  rw [h1, if_pos ⟨by omega, h2⟩]

theorem fwrite_at_natCast (buf : Buf) (off w : Nat) (h : off + w ≤ buf.size) :
    fwrite_at buf (off : Int) (w : Int)
      = some ((List.range w).map (fun c => buf.byte (off + c))) := by
  unfold fwrite_at
  have h1 : (off : Int) + (w : Int) ≤ (buf.size : Int) := by exact_mod_cast h
  rw [if_pos ⟨Int.natCast_nonneg _, Int.natCast_nonneg _, h1⟩]
  simp

theorem save_rows_spec (buf : Buf) (w s : Nat) :
    ∀ (n i : Nat),
      (∀ r, r < n → (i + r) * s ≤ 2147483647 ∧ (i + r) * s + w ≤ buf.size) →
      ∃ payload, save_rows buf (s : Int) (w : Int) n (i : Int) = some payload
        ∧ payload.length = n * w
        ∧ ∀ r c, r < n → c < w →
            payload[r * w + c]? = some (buf.byte ((i + r) * s + c)) := by
  intro n
  induction n with
  | zero =>
    intro i _
    exact ⟨[], rfl, by simp, fun r c hr _ => absurd hr (Nat.not_lt_zero r)⟩
  | succ n ih =>
    intro i hrows
    have h0 := hrows 0 (Nat.succ_pos n)
    simp only [Nat.add_zero] at h0
    have hrest : ∀ r, r < n →
        (i + 1 + r) * s ≤ 2147483647 ∧ (i + 1 + r) * s + w ≤ buf.size := by
      intro r hr
      have := hrows (r + 1) (Nat.succ_lt_succ hr)
      have e : i + (r + 1) = i + 1 + r := by omega
      rwa [e] at this
    obtain ⟨rest, hrest_eq, hlen, hget⟩ := ih (i + 1) hrest
    have hcast : ((i : Int) + 1) = ((i + 1 : Nat) : Int) := by push_cast; rfl
    refine ⟨(List.range w).map (fun c => buf.byte (i * s + c)) ++ rest, ?_, ?_, ?_⟩
    · simp only [save_rows]
      rw [int_mul_natCast i s h0.1]
      simp only []
      rw [fwrite_at_natCast buf (i * s) w h0.2]
      simp only []
      rw [hcast, hrest_eq]
    · simp [hlen, Nat.succ_mul, Nat.add_comm]
    · intro r c hr hc
      cases r with
      | zero =>
        have hc2 : c < ((List.range w).map (fun c => buf.byte (i * s + c))).length := by
          simpa using hc
        simp only [Nat.zero_mul, Nat.zero_add, Nat.add_zero]
        rw [List.getElem?_append_left hc2]
        simp [hc]
      | succ r =>
        have hr2 : r < n := Nat.lt_of_succ_lt_succ hr
        have hge : ((List.range w).map (fun c => buf.byte (i * s + c))).length
            ≤ (r + 1) * w + c := by
          simp only [List.length_map, List.length_range, Nat.succ_mul]
          omega
        rw [List.getElem?_append_right hge]
        have hidx : (r + 1) * w + c
            - ((List.range w).map (fun c => buf.byte (i * s + c))).length = r * w + c := by
          simp only [List.length_map, List.length_range, Nat.succ_mul]
          omega
        rw [hidx, hget r c hr2 hc]
        have e : i + 1 + r = i + (r + 1) := by omega
        rw [e]

theorem pgm_header_natCast (w h : Nat) :
    pgm_header (w : Int) (h : Int)
      = asciiBytes ("P5\n" ++ toString w ++ " " ++ toString h ++ "\n255\n") := by
  have e : ("\n" : String) ++ (toString (255 : Int) ++ "\n") = "\n255\n" := by decide
  have hw : toString ((w : Nat) : Int) = toString w := rfl
  have hh : toString ((h : Nat) : Int) = toString h := rfl
  unfold pgm_header
  rw [hw, hh]
  simp only [String.append_assoc]
  rw [e]

/-- C1 (amended): for every buffer, width `w`, height `h` and stride `s`
such that the buffer holds at least `(h-1)*s + w` bytes when `h > 0` and the
largest row offset `(h-1)*s` fits a C `int`, `save_gray_frame` writes the
ASCII header `P5\n<w> <h>\n255\n` followed by exactly `w*h` payload bytes,
payload byte `r*w + c` being source byte `r*s + c`. (The bound `s ≥ w` of
the claim is not needed.) -/
theorem save_gray_frame_writes_pgm (buf : Buf) (w h s : Nat)
    (hbuf : 0 < h → (h - 1) * s + w ≤ buf.size)
    (hint : (h - 1) * s ≤ 2147483647) :
    ∃ payload,
      save_gray_frame buf (s : Int) (w : Int) (h : Int)
        = some (asciiBytes ("P5\n" ++ toString w ++ " " ++ toString h ++ "\n255\n")
            ++ payload)
      ∧ payload.length = w * h
      ∧ ∀ r c, r < h → c < w → payload[r * w + c]? = some (buf.byte (r * s + c)) := by
  have hrows : ∀ r, r < h → (0 + r) * s ≤ 2147483647 ∧ (0 + r) * s + w ≤ buf.size := by
    intro r hr
    have hle : r * s ≤ (h - 1) * s := Nat.mul_le_mul_right s (by omega)
    have hb := hbuf (by omega)
    rw [Nat.zero_add]
    exact ⟨by omega, by omega⟩
  obtain ⟨payload, heq, hlen, hget⟩ := save_rows_spec buf w s h 0 hrows
  refine ⟨payload, ?_, ?_, ?_⟩
  · unfold save_gray_frame
    have e : ((h : Nat) : Int).toNat = h := Int.toNat_natCast h
    have z : ((0 : Nat) : Int) = 0 := rfl
    rw [e, ← z, heq, pgm_header_natCast]
  · rw [hlen, Nat.mul_comm]
  · intro r c hr hc
    have := hget r c hr hc
    rwa [Nat.zero_add] at this

/-- Witness for C1 (amended): a 3 x 2 image stored with stride 4 in a
7-byte buffer. -/
theorem save_gray_frame_writes_pgm_witness :
    ((0 < 2 → (2 - 1) * 4 + 3 ≤ (rampBuf 7).size) ∧ (2 - 1) * 4 ≤ 2147483647)
    ∧ ∃ payload,
      save_gray_frame (rampBuf 7) ((4 : Nat) : Int) ((3 : Nat) : Int) ((2 : Nat) : Int)
        = some (asciiBytes ("P5\n" ++ toString 3 ++ " " ++ toString 2 ++ "\n255\n")
            ++ payload)
      ∧ payload.length = 3 * 2
      ∧ ∀ r c, r < 2 → c < 3 →
          payload[r * 3 + c]? = some ((rampBuf 7).byte (r * 4 + c)) :=
  ⟨⟨by decide, by decide⟩,
    save_gray_frame_writes_pgm (rampBuf 7) 3 2 4 (by decide) (by decide)⟩

/-- C1 as stated fails: width 1, height 3, stride 2147483647 and a buffer of
`(3-1)*2147483647 + 1` bytes meet every condition of the claim, yet row 2 is
read at `i * wrap = 2 * 2147483647`, which no C `int` holds, so the call has
no defined result and no file content is guaranteed. -/
theorem save_gray_frame_int_overflow :
    ((0 : Int) ≤ 1 ∧ (0 : Int) ≤ 3 ∧ (1 : Int) ≤ 2147483647
      ∧ (3 - 1) * 2147483647 + 1 ≤ (zeroBuf 4294967295).size)
    ∧ ¬ ∃ out, save_gray_frame (zeroBuf 4294967295) 2147483647 1 3 = some out := by
  refine ⟨by decide, ?_⟩
  have h : save_gray_frame (zeroBuf 4294967295) 2147483647 1 3 = none := by decide
  rintro ⟨out, hout⟩
  rw [h] at hout
  exact Option.noConfusion hout


/-! ## Stream selection -/

theorem enumerate_streams_keeps_selection (find_decoder : Nat → Option AVCodec) :
    ∀ (streams : List AVCodecParameters) (i : Int) (sel : Selection),
      sel.video_stream_index ≠ -1 →
      (enumerate_streams find_decoder streams i sel).1 = sel := by
  intro streams
  induction streams with
  | nil => intro i sel _; rfl
  | cons par rest ih =>
    intro i sel hsel
    simp only [enumerate_streams]
    cases hfind : find_decoder par.codec_id with
    | none => exact ih (i + 1) sel hsel
    | some local_codec =>
      simp only []
      by_cases hv : par.codec_type = .VIDEO
      · rw [if_pos hv, if_neg hsel]; exact ih (i + 1) sel hsel
      · rw [if_neg hv]; exact ih (i + 1) sel hsel

theorem enumerate_streams_first_selectable (find_decoder : Nat → Option AVCodec) :
    ∀ (streams : List AVCodecParameters) (i : Int) (sel : Selection) (k : Nat)
      (par : AVCodecParameters),
      sel.video_stream_index = -1 → 0 ≤ i →
      streams[k]? = some par → selectable find_decoder par →
      (∀ j q, j < k → streams[j]? = some q → ¬ selectable find_decoder q) →
      (enumerate_streams find_decoder streams i sel).1
        = ⟨find_decoder par.codec_id, some par, i + (k : Int)⟩ := by
  intro streams
  induction streams with
  | nil => intro i sel k par _ _ hk; simp at hk
  | cons head rest ih =>
    intro i sel k par hsel hi hk hpar hfirst
    cases k with
    | zero =>
      simp only [List.getElem?_cons_zero, Option.some.injEq] at hk
      subst hk
      obtain ⟨hv, hd⟩ := hpar
      simp only [enumerate_streams]
      cases hfind : find_decoder head.codec_id with
      | none => rw [hfind] at hd; simp at hd
      | some local_codec =>
        simp only []
        rw [if_pos hv, if_pos hsel]
        have hne : (⟨some local_codec, some head, i⟩ : Selection).video_stream_index ≠ -1 := by
          show i ≠ -1
          omega
        rw [enumerate_streams_keeps_selection find_decoder rest (i + 1) _ hne]
        simp
    | succ k =>
      simp only [List.getElem?_cons_succ] at hk
      have hhead : ¬ selectable find_decoder head :=
        hfirst 0 head (Nat.succ_pos k) (by simp)
      have hrest : ∀ j q, j < k → rest[j]? = some q → ¬ selectable find_decoder q := by
        intro j q hj hq
        exact hfirst (j + 1) q (Nat.succ_lt_succ hj) (by simpa using hq)
      have hstep := ih (i + 1) sel k par hsel (by omega) hk hpar hrest
      have hidx : i + 1 + (k : Int) = i + ((k + 1 : Nat) : Int) := by push_cast; omega
      rw [hidx] at hstep
      simp only [enumerate_streams]
      cases hfind : find_decoder head.codec_id with
      | none => exact hstep
      | some local_codec =>
        simp only []
        by_cases hv : head.codec_type = .VIDEO
        · exact absurd ⟨hv, by rw [hfind]; rfl⟩ hhead
        · rw [if_neg hv]; exact hstep

theorem enumerate_streams_no_video (find_decoder : Nat → Option AVCodec) :
    ∀ (streams : List AVCodecParameters) (i : Int) (sel : Selection),
      (∀ par, par ∈ streams → par.codec_type ≠ .VIDEO) →
      (enumerate_streams find_decoder streams i sel).1 = sel := by
  intro streams
  induction streams with
  | nil => intro i sel _; rfl
  | cons par rest ih =>
    intro i sel hno
    have hrest : ∀ q, q ∈ rest → q.codec_type ≠ .VIDEO :=
      fun q hq => hno q (List.mem_cons_of_mem par hq)
    have hpar : par.codec_type ≠ .VIDEO := hno par (List.mem_cons_self par rest)
    simp only [enumerate_streams]
    cases hfind : find_decoder par.codec_id with
    | none => exact ih (i + 1) sel hrest
    | some local_codec =>
      simp only []
      rw [if_neg hpar]; exact ih (i + 1) sel hrest

theorem enumerate_streams_trace (find_decoder : Nat → Option AVCodec) :
    ∀ (streams : List AVCodecParameters) (i : Int) (sel : Selection) (e : Event),
      e ∈ (enumerate_streams find_decoder streams i sel).2 →
      e = .stderr .unsupported_codec := by
  intro streams
  induction streams with
  | nil => intro i sel e he; simp [enumerate_streams] at he
  | cons par rest ih =>
    intro i sel e he
    simp only [enumerate_streams] at he
    cases hfind : find_decoder par.codec_id with
    | none =>
      rw [hfind] at he
      simp only [List.mem_cons] at he
      rcases he with he | he
      · exact he
      · exact ih (i + 1) sel e he
    | some local_codec =>
      rw [hfind] at he
      simp only [] at he
      by_cases hv : par.codec_type = .VIDEO
      · rw [if_pos hv] at he
        by_cases hs : sel.video_stream_index = -1
        · rw [if_pos hs] at he; exact ih _ _ e he
        · rw [if_neg hs] at he; exact ih _ _ e he
      · rw [if_neg hv] at he; exact ih _ _ e he

/-- C3 (amended): when stream `k` is the first video-typed stream whose
codec has a registered decoder, the enumeration loop of `main` leaves
`video_stream_index = k`, with that stream's parameters and decoder,
whatever the streams after it are. Video-typed streams before it whose
codec has no decoder are skipped. -/
theorem enumerate_streams_selects_first_decodable_video
    (find_decoder : Nat → Option AVCodec) (streams : List AVCodecParameters)
    (k : Nat) (par : AVCodecParameters)
    (hk : streams[k]? = some par) (hpar : selectable find_decoder par)
    (hfirst : ∀ j q, j < k → streams[j]? = some q → ¬ selectable find_decoder q) :
    (enumerate_streams find_decoder streams 0 Selection.init).1
      = ⟨find_decoder par.codec_id, some par, (k : Int)⟩ := by
  have h := enumerate_streams_first_selectable find_decoder streams 0 Selection.init k par
    rfl (le_refl 0) hk hpar hfirst
  rw [h, Int.zero_add]

/-- Witness for C3 (amended): of two video streams the first has no decoder,
so the second one, index 1, is selected. -/
theorem enumerate_streams_selects_first_decodable_video_witness :
    (enumerate_streams (fun id => if id < 100 then some ⟨id⟩ else none) twoVideos 0
        Selection.init).1
      = ⟨some ⟨2⟩, some ⟨.VIDEO, 2, 640, 480⟩, 1⟩ :=
  enumerate_streams_selects_first_decodable_video
    (fun id => if id < 100 then some ⟨id⟩ else none) twoVideos 1 ⟨.VIDEO, 2, 640, 480⟩
    rfl ⟨rfl, rfl⟩
    (by
      intro j q hj hq
      have hj0 : j = 0 := by omega
      subst hj0
      have hq2 : q = ⟨.VIDEO, 100, 1920, 1080⟩ := by
        simpa [twoVideos] using hq.symm
      subst hq2
      intro hsel
      exact absurd hsel.2 (by decide))

/-- C3 as stated fails: in a container whose stream 0 is video-typed with a
codec that has no decoder and whose stream 1 is video-typed with a decodable
codec, the first video-typed stream is stream 0 but the loop selects
stream 1. -/
theorem enumerate_streams_skips_undecodable_video :
    (twoVideos[0]?).map (fun par => par.codec_type) = some AVMediaType.VIDEO
    ∧ (enumerate_streams (fun id => if id < 100 then some ⟨id⟩ else none) twoVideos 0
        Selection.init).1.video_stream_index = 1
    ∧ (enumerate_streams (fun id => if id < 100 then some ⟨id⟩ else none) twoVideos 0
        Selection.init).1.video_stream_index ≠ 0 := by
  decide

/-! ## Traces: projections -/

theorem savedFiles_append (a b : List Event) :
    savedFiles (a ++ b) = savedFiles a ++ savedFiles b := by
  induction a with
  | nil => rfl
  | cons e t ih => cases e <;> simp [savedFiles, ih]

theorem decodedPackets_append (a b : List Event) :
    decodedPackets (a ++ b) = decodedPackets a ++ decodedPackets b := by
  induction a with
  | nil => rfl
  | cons e t ih => cases e <;> simp [decodedPackets, ih]

theorem decodeReturns_append (a b : List Event) :
    decodeReturns (a ++ b) = decodeReturns a ++ decodeReturns b := by
  induction a with
  | nil => rfl
  | cons e t ih => cases e <;> simp [decodeReturns, ih]

theorem receiveResponses_append (a b : List Event) :
    receiveResponses (a ++ b) = receiveResponses a ++ receiveResponses b := by
  induction a with
  | nil => rfl
  | cons e t ih => cases e <;> simp [receiveResponses, ih]

theorem withoutReads_append (a b : List Event) :
    withoutReads (a ++ b) = withoutReads a ++ withoutReads b := by
  simp [withoutReads]

theorem savedFiles_eq_nil (l : List Event) (h : ∀ e, e ∈ l → e.isSave = false) :
    savedFiles l = [] := by
  induction l with
  | nil => rfl
  | cons e t ih =>
    have he := h e (List.mem_cons_self e t)
    have ht := ih (fun x hx => h x (List.mem_cons_of_mem e hx))
    cases e <;> simp_all [savedFiles, Event.isSave]

theorem decodedPackets_eq_nil (l : List Event) (h : ∀ e, e ∈ l → e.isDecode = false) :
    decodedPackets l = [] := by
  induction l with
  | nil => rfl
  | cons e t ih =>
    have he := h e (List.mem_cons_self e t)
    have ht := ih (fun x hx => h x (List.mem_cons_of_mem e hx))
    cases e <;> simp_all [decodedPackets, Event.isDecode]

theorem decodeReturns_eq_nil (l : List Event) (h : ∀ e, e ∈ l → e.isReturn = false) :
    decodeReturns l = [] := by
  induction l with
  | nil => rfl
  | cons e t ih =>
    have he := h e (List.mem_cons_self e t)
    have ht := ih (fun x hx => h x (List.mem_cons_of_mem e hx))
    cases e <;> simp_all [decodeReturns, Event.isReturn]

theorem withoutReads_eq_self (l : List Event) (h : ∀ e, e ∈ l → e.isRead = false) :
    withoutReads l = l := by
  unfold withoutReads
  rw [List.filter_eq_self]
  intro e he
  simp [h e he]

theorem isInner_facts (e : Event) (h : e.isInner = true) :
    e.isRead = false ∧ e.isDecode = false ∧ e.isReturn = false ∧ e.isAlloc = false := by
  cases e <;> simp_all [Event.isInner, Event.isRead, Event.isDecode, Event.isReturn,
    Event.isAlloc]

theorem isSetup_facts (e : Event) (h : e.isSetup = true) :
    e.isRead = false ∧ e.isDecode = false ∧ e.isReturn = false ∧ e.isSave = false := by
  cases e <;> simp_all [Event.isSetup, Event.isRead, Event.isDecode, Event.isReturn,
    Event.isSave]

/-! ## Packet Decoder: the events of one call -/

theorem drain_trace_inner {σ : Type} (D : Decoder σ) :
    ∀ (fuel : Nat) (response : Int) (ctx : σ) (e : Event),
      e ∈ (drain D fuel response ctx).trace → e.isInner = true := by
  intro fuel
  induction fuel with
  | zero =>
    intro response ctx e he
    unfold drain at he
    split at he <;> simp at he
  | succ fuel ih =>
    intro response ctx e he
    unfold drain at he
    split at he
    · simp only [] at he
      split at he
      · simp only [List.mem_singleton] at he; subst he; rfl
      · split at he
        · simp only [List.mem_cons, List.mem_singleton, List.not_mem_nil, or_false] at he
          rcases he with he | he <;> subst he <;> rfl
        · simp only [Run.after, List.cons_append, List.nil_append, List.mem_cons] at he
          rcases he with he | he | he
          · subst he; rfl
          · subst he; rfl
          · exact ih _ _ e he
    · simp at he

theorem decode_packet_trace_inner {σ : Type} (D : Decoder σ) (fuel : Nat)
    (packet : AVPacket) (ctx : σ) (e : Event)
    (he : e ∈ (decode_packet D fuel packet ctx).trace) : e.isInner = true := by
  unfold decode_packet at he
  simp only [] at he
  split at he
  · simp only [List.mem_cons, List.mem_singleton, List.not_mem_nil, or_false] at he
    rcases he with he | he <;> subst he <;> rfl
  · simp only [Run.after, List.cons_append, List.nil_append, List.mem_cons] at he
    rcases he with he | he
    · subst he; rfl
    · exact drain_trace_inner D fuel _ _ e he

theorem decode_packet_projections {σ : Type} (D : Decoder σ) (fuel : Nat)
    (packet : AVPacket) (ctx : σ) :
    decodedPackets (decode_packet D fuel packet ctx).trace = []
    ∧ decodeReturns (decode_packet D fuel packet ctx).trace = []
    ∧ withoutReads (decode_packet D fuel packet ctx).trace
        = (decode_packet D fuel packet ctx).trace := by
  have h := fun e he => isInner_facts e (decode_packet_trace_inner D fuel packet ctx e he)
  exact ⟨decodedPackets_eq_nil _ (fun e he => (h e he).2.1),
    decodeReturns_eq_nil _ (fun e he => (h e he).2.2.1),
    withoutReads_eq_self _ (fun e he => (h e he).1)⟩

/-! ## Pipeline Driver: set-up -/

theorem setup_trace_isSetup {σ : Type} (E : Env σ) (e : Event)
    (he : e ∈ (setup E).trace) : e.isSetup = true := by
  have hen : ∀ x, x ∈ (enumerate_streams E.avcodec_find_decoder E.streams 0
      Selection.init).2 → x.isSetup = true := by
    intro x hx
    rw [enumerate_streams_trace _ _ _ _ x hx]
    rfl
  unfold setup at he
  simp only [] at he
  repeat' split at he
  all_goals
    simp only [Setup.trace, List.mem_append, List.mem_singleton, List.mem_cons,
      List.not_mem_nil, or_false] at he
  all_goals
    first
      | (subst he; rfl)
      | (rcases he with he | he
         · exact hen e he
         · subst he; rfl)
      | (rcases he with (he | he) | he
         · exact hen e he
         · subst he; rfl
         · subst he; rfl)

theorem setup_no_video {σ : Type} (E : Env σ)
    (hargs : 2 ≤ E.argv.length) (halloc : E.avformat_alloc_context = true)
    (hopen : E.avformat_open_input = 0) (hprobe : 0 ≤ E.avformat_find_stream_info)
    (hnovideo : ∀ par, par ∈ E.streams → par.codec_type ≠ .VIDEO) :
    setup E = .failed
      ((enumerate_streams E.avcodec_find_decoder E.streams 0 Selection.init).2
        ++ [.stderr .no_video_stream]) := by
  have hsel := enumerate_streams_no_video E.avcodec_find_decoder E.streams 0
    Selection.init hnovideo
  unfold setup
  rw [if_neg (by omega), halloc]
  simp only [Bool.not_true, Bool.false_eq_true, if_false]
  rw [if_neg (by simp [hopen]), if_neg (by omega)]
  show (if (enumerate_streams E.avcodec_find_decoder E.streams 0
      Selection.init).1.video_stream_index = -1 then _ else _) = _
  rw [hsel, if_pos (show Selection.init.video_stream_index = -1 from rfl)]

/-- C4: for every container that opens and probes successfully and whose
stream list has no video-typed stream (the empty list included), `main`
returns -1 with the no-video-stream diagnostic as its last event; before it
there are only unsupported-codec diagnostics, so no decoder is allocated,
`decode_packet` is never invoked and no file is written. -/
theorem main_no_video_stream {σ : Type} (E : Env σ) (fuel : Nat)
    (hargs : 2 ≤ E.argv.length) (halloc : E.avformat_alloc_context = true)
    (hopen : E.avformat_open_input = 0) (hprobe : 0 ≤ E.avformat_find_stream_info)
    (hnovideo : ∀ par, par ∈ E.streams → par.codec_type ≠ .VIDEO) :
    (main E fuel).ret = some (-1)
    ∧ (∃ diags, (main E fuel).trace = diags ++ [.stderr .no_video_stream]
        ∧ ∀ e, e ∈ diags → e = .stderr .unsupported_codec)
    ∧ (∀ e, e ∈ (main E fuel).trace →
        e.isAlloc = false ∧ e.isDecode = false ∧ e.isSave = false)
    ∧ decodedPackets (main E fuel).trace = []
    ∧ savedFiles (main E fuel).trace = [] := by
  have hs := setup_no_video E hargs halloc hopen hprobe hnovideo
  have hmain : main E fuel = ⟨some (-1),
      (enumerate_streams E.avcodec_find_decoder E.streams 0 Selection.init).2
        ++ [.stderr .no_video_stream]⟩ := by
    unfold main
    rw [hs]
  have hdiag := enumerate_streams_trace E.avcodec_find_decoder E.streams 0 Selection.init
  have hall : ∀ e, e ∈ (main E fuel).trace →
      e.isAlloc = false ∧ e.isDecode = false ∧ e.isSave = false := by
    intro e he
    rw [hmain] at he
    simp only [List.mem_append, List.mem_singleton] at he
    rcases he with he | he
    · rw [hdiag e he]; exact ⟨rfl, rfl, rfl⟩
    · subst he; exact ⟨rfl, rfl, rfl⟩
  refine ⟨by rw [hmain], ⟨_, by rw [hmain], hdiag⟩, hall,
    decodedPackets_eq_nil _ (fun e he => (hall e he).2.1),
    savedFiles_eq_nil _ (fun e he => (hall e he).2.2)⟩

/-- Witness for C4: a container with one audio stream and one subtitle
stream whose codec has no decoder; packets are present but never read. -/
theorem main_no_video_stream_witness :
    (main (testEnv testDecoder audioSubtitle [pkt 0 1, pkt 1 1]) 5).ret = some (-1)
    ∧ (∃ diags,
        (main (testEnv testDecoder audioSubtitle [pkt 0 1, pkt 1 1]) 5).trace
          = diags ++ [.stderr .no_video_stream]
        ∧ ∀ e, e ∈ diags → e = .stderr .unsupported_codec)
    ∧ (∀ e, e ∈ (main (testEnv testDecoder audioSubtitle [pkt 0 1, pkt 1 1]) 5).trace →
        e.isAlloc = false ∧ e.isDecode = false ∧ e.isSave = false)
    ∧ decodedPackets (main (testEnv testDecoder audioSubtitle [pkt 0 1, pkt 1 1]) 5).trace
        = []
    ∧ savedFiles (main (testEnv testDecoder audioSubtitle [pkt 0 1, pkt 1 1]) 5).trace
        = [] :=
  main_no_video_stream (testEnv testDecoder audioSubtitle [pkt 0 1, pkt 1 1]) 5
    (by decide) rfl rfl (by decide)
    (by
      intro par hpar
      simp only [testEnv, audioSubtitle, List.mem_cons, List.mem_singleton,
        List.not_mem_nil, or_false] at hpar
      rcases hpar with h | h <;> subst h <;> decide)

/-! ## Pipeline Driver: the loop -/

theorem read_loop_other {σ : Type} (D : Decoder σ) (fuel : Nat) (vsi : Int)
    (packet : AVPacket) (rest : List AVPacket) (b : Int) (ctx : σ)
    (h : packet.stream_index ≠ vsi) :
    read_loop D fuel vsi (packet :: rest) b ctx
      = LoopRun.after [.av_read_frame (some packet)] (read_loop D fuel vsi rest b ctx) := by
  rw [read_loop, if_neg h]

theorem read_loop_video_running {σ : Type} (D : Decoder σ) (fuel : Nat) (vsi : Int)
    (packet : AVPacket) (rest : List AVPacket) (b : Int) (ctx : σ)
    (h : packet.stream_index = vsi) (hret : (decode_packet D fuel packet ctx).ret = none) :
    read_loop D fuel vsi (packet :: rest) b ctx
      = ⟨false, [.av_read_frame (some packet), .decode_packet packet]
          ++ (decode_packet D fuel packet ctx).trace, b,
          (decode_packet D fuel packet ctx).ctx⟩ := by
  rw [read_loop, if_pos h]
  simp only [hret]

theorem read_loop_video_failed {σ : Type} (D : Decoder σ) (fuel : Nat) (vsi : Int)
    (packet : AVPacket) (rest : List AVPacket) (b : Int) (ctx : σ) (response : Int)
    (h : packet.stream_index = vsi)
    (hret : (decode_packet D fuel packet ctx).ret = some response) (hneg : response < 0) :
    read_loop D fuel vsi (packet :: rest) b ctx
      = ⟨true, [.av_read_frame (some packet), .decode_packet packet]
          ++ (decode_packet D fuel packet ctx).trace
          ++ [.decode_packet_returned response], b,
          (decode_packet D fuel packet ctx).ctx⟩ := by
  rw [read_loop, if_pos h]
  simp only [hret, if_pos hneg]

theorem read_loop_video_last {σ : Type} (D : Decoder σ) (fuel : Nat) (vsi : Int)
    (packet : AVPacket) (rest : List AVPacket) (b : Int) (ctx : σ) (response : Int)
    (h : packet.stream_index = vsi)
    (hret : (decode_packet D fuel packet ctx).ret = some response) (hok : ¬ response < 0)
    (hb : b - 1 ≤ 0) :
    read_loop D fuel vsi (packet :: rest) b ctx
      = ⟨true, [.av_read_frame (some packet), .decode_packet packet]
          ++ (decode_packet D fuel packet ctx).trace
          ++ [.decode_packet_returned response], b - 1,
          (decode_packet D fuel packet ctx).ctx⟩ := by
  rw [read_loop, if_pos h]
  simp only [hret, if_neg hok, if_pos hb]

theorem read_loop_video_next {σ : Type} (D : Decoder σ) (fuel : Nat) (vsi : Int)
    (packet : AVPacket) (rest : List AVPacket) (b : Int) (ctx : σ) (response : Int)
    (h : packet.stream_index = vsi)
    (hret : (decode_packet D fuel packet ctx).ret = some response) (hok : ¬ response < 0)
    (hb : ¬ b - 1 ≤ 0) :
    read_loop D fuel vsi (packet :: rest) b ctx
      = LoopRun.after
          ([.av_read_frame (some packet), .decode_packet packet]
            ++ (decode_packet D fuel packet ctx).trace
            ++ [.decode_packet_returned response])
          (read_loop D fuel vsi rest (b - 1) (decode_packet D fuel packet ctx).ctx) := by
  rw [read_loop, if_pos h]
  simp only [hret, if_neg hok, if_neg hb]

theorem decodedPackets_iteration {σ : Type} (D : Decoder σ) (fuel : Nat)
    (packet : AVPacket) (ctx : σ) :
    decodedPackets
      ([.av_read_frame (some packet), .decode_packet packet]
        ++ (decode_packet D fuel packet ctx).trace)
      = [packet] := by
  rw [decodedPackets_append, (decode_packet_projections D fuel packet ctx).1]
  rfl

theorem decodedPackets_iteration_returned {σ : Type} (D : Decoder σ) (fuel : Nat)
    (packet : AVPacket) (ctx : σ) (response : Int) :
    decodedPackets
      ([.av_read_frame (some packet), .decode_packet packet]
        ++ (decode_packet D fuel packet ctx).trace
        ++ [.decode_packet_returned response])
      = [packet] := by
  rw [decodedPackets_append, decodedPackets_iteration]
  rfl

theorem read_loop_decode_count {σ : Type} (D : Decoder σ) (fuel : Nat) (vsi : Int) :
    ∀ (packets : List AVPacket) (b : Int) (ctx : σ), 1 ≤ b →
      ((decodedPackets (read_loop D fuel vsi packets b ctx).trace).length : Int) ≤ b := by
  intro packets
  induction packets with
  | nil =>
    intro b ctx hb
    simp only [read_loop, decodedPackets, List.length_nil]
    omega
  | cons packet rest ih =>
    intro b ctx hb
    by_cases h : packet.stream_index = vsi
    · cases hret : (decode_packet D fuel packet ctx).ret with
      | none =>
        rw [read_loop_video_running D fuel vsi packet rest b ctx h hret]
        dsimp only
        rw [decodedPackets_iteration, List.length_singleton]
        omega
      | some response =>
        by_cases hneg : response < 0
        · rw [read_loop_video_failed D fuel vsi packet rest b ctx response h hret hneg]
          dsimp only
          rw [decodedPackets_iteration_returned, List.length_singleton]
          omega
        · by_cases hlast : b - 1 ≤ 0
          · rw [read_loop_video_last D fuel vsi packet rest b ctx response h hret hneg hlast]
            dsimp only
            rw [decodedPackets_iteration_returned, List.length_singleton]
            omega
          · rw [read_loop_video_next D fuel vsi packet rest b ctx response h hret hneg hlast]
            have hrec := ih (b - 1) (decode_packet D fuel packet ctx).ctx (by omega)
            unfold LoopRun.after
            dsimp only
            rw [decodedPackets_append, decodedPackets_iteration_returned,
              List.length_append, List.length_singleton]
            push_cast
            omega
    · rw [read_loop_other D fuel vsi packet rest b ctx h]
      have hrec := ih b ctx hb
      unfold LoopRun.after
      dsimp only
      rw [decodedPackets_append]
      exact hrec

/-- C2: for every environment (any packets, any interleaving of streams,
any decoder) and any number of drain iterations allowed, `decode_packet` is
invoked for at most 8 packets during a run of `main`. -/
theorem main_decodes_at_most_8_packets {σ : Type} (E : Env σ) (fuel : Nat) :
    (decodedPackets (main E fuel).trace).length ≤ 8 := by
  unfold main
  cases hs : setup E with
  | failed tr =>
    have hnil : decodedPackets tr = [] := by
      apply decodedPackets_eq_nil
      intro e he
      have : e ∈ (setup E).trace := by rw [hs]; exact he
      exact (isSetup_facts e (setup_trace_isSetup E e this)).2.1
    simp only [hnil, List.length_nil]
    omega
  | ready vsi ctx tr =>
    have hnil : decodedPackets tr = [] := by
      apply decodedPackets_eq_nil
      intro e he
      have : e ∈ (setup E).trace := by rw [hs]; exact he
      exact (isSetup_facts e (setup_trace_isSetup E e this)).2.1
    have hcount := read_loop_decode_count E.decoder fuel vsi E.packets 8 ctx (by omega)
    simp only [decodedPackets_append, hnil, List.nil_append]
    omega

theorem split_after_events (tr : List Event) :
    ∀ (l pre post : List Event) (e : Event),
      tr ++ l = pre ++ e :: post → e.isReturn = true →
      (∀ x, x ∈ tr → x.isReturn = false) →
      ∃ mid, l = mid ++ e :: post := by
  induction tr with
  | nil => intro l pre post e h _ _; exact ⟨pre, h⟩
  | cons x t ih =>
    intro l pre post e h he hne
    cases pre with
    | nil =>
      simp only [List.cons_append, List.nil_append, List.cons.injEq] at h
      have hx := hne x (List.mem_cons_self x t)
      rw [h.1, he] at hx
      exact absurd hx (by decide)
    | cons y pre =>
      simp only [List.cons_append, List.cons.injEq] at h
      exact ih l pre post e h.2 he (fun z hz => hne z (List.mem_cons_of_mem x hz))

theorem iteration_no_return {σ : Type} (D : Decoder σ) (fuel : Nat)
    (packet : AVPacket) (ctx : σ) (x : Event)
    (hx : x ∈ [Event.av_read_frame (some packet), Event.decode_packet packet]
      ++ (decode_packet D fuel packet ctx).trace) : x.isReturn = false := by
  simp only [List.cons_append, List.nil_append, List.mem_cons] at hx
  rcases hx with hx | hx | hx
  · subst hx; rfl
  · subst hx; rfl
  · exact (isInner_facts x (decode_packet_trace_inner D fuel packet ctx x hx)).2.2.1

theorem read_loop_stops_at_failure {σ : Type} (D : Decoder σ) (fuel : Nat) (vsi : Int) :
    ∀ (packets : List AVPacket) (b : Int) (ctx : σ) (pre post : List Event) (r : Int),
      (read_loop D fuel vsi packets b ctx).trace
        = pre ++ Event.decode_packet_returned r :: post →
      r < 0 → post = [] := by
  intro packets
  induction packets with
  | nil =>
    intro b ctx pre post r h _
    simp only [read_loop] at h
    cases pre with
    | nil => simp at h
    | cons y pre => cases pre <;> simp at h
  | cons packet rest ih =>
    intro b ctx pre post r h hr
    by_cases hv : packet.stream_index = vsi
    · cases hret : (decode_packet D fuel packet ctx).ret with
      | none =>
        rw [read_loop_video_running D fuel vsi packet rest b ctx hv hret] at h
        dsimp only at h
        rw [← List.append_nil (_ ++ (decode_packet D fuel packet ctx).trace)] at h
        obtain ⟨mid, hmid⟩ := split_after_events _ _ _ _ _ h rfl
          (iteration_no_return D fuel packet ctx)
        cases mid <;> simp at hmid
      | some response =>
        by_cases hneg : response < 0
        · rw [read_loop_video_failed D fuel vsi packet rest b ctx response hv hret hneg] at h
          dsimp only at h
          obtain ⟨mid, hmid⟩ := split_after_events _ _ _ _ _ h rfl
            (iteration_no_return D fuel packet ctx)
          cases mid with
          | nil =>
            simp only [List.nil_append, List.cons.injEq] at hmid
            exact hmid.2.symm
          | cons y mid => cases mid <;> simp at hmid
        · by_cases hlast : b - 1 ≤ 0
          · rw [read_loop_video_last D fuel vsi packet rest b ctx response hv hret hneg
              hlast] at h
            dsimp only at h
            obtain ⟨mid, hmid⟩ := split_after_events _ _ _ _ _ h rfl
              (iteration_no_return D fuel packet ctx)
            cases mid with
            | nil =>
              simp only [List.nil_append, List.cons.injEq] at hmid
              exact hmid.2.symm
            | cons y mid => cases mid <;> simp at hmid
          · rw [read_loop_video_next D fuel vsi packet rest b ctx response hv hret hneg
              hlast] at h
            unfold LoopRun.after at h
            dsimp only at h
            rw [List.append_assoc] at h
            obtain ⟨mid, hmid⟩ := split_after_events _ _ _ _ _ h rfl
              (iteration_no_return D fuel packet ctx)
            cases mid with
            | nil =>
              simp only [List.cons_append, List.nil_append, List.cons.injEq,
                Event.decode_packet_returned.injEq] at hmid
              omega
            | cons y mid =>
              simp only [List.cons_append, List.nil_append, List.cons.injEq] at hmid
              exact ih _ _ mid post r hmid.2 hr
    · rw [read_loop_other D fuel vsi packet rest b ctx hv] at h
      unfold LoopRun.after at h
      dsimp only at h
      obtain ⟨mid, hmid⟩ := split_after_events _ _ _ _ _ h rfl
        (by
          intro x hx
          simp only [List.mem_singleton] at hx
          subst hx; rfl)
      exact ih _ _ mid post r hmid hr

/-- C7: in every run of `main`, a `decode_packet` call that returns a
negative value (submission rejected or decode error) is the last event of
the run: no further packet is read, none is handed to the decoder and no
file is written after it. -/
theorem main_stops_at_failed_packet {σ : Type} (E : Env σ) (fuel : Nat)
    (pre post : List Event) (r : Int)
    (h : (main E fuel).trace = pre ++ Event.decode_packet_returned r :: post)
    (hr : r < 0) : post = [] := by
  unfold main at h
  cases hs : setup E with
  | failed tr =>
    rw [hs] at h
    dsimp only at h
    rw [← List.append_nil tr] at h
    obtain ⟨mid, hmid⟩ := split_after_events _ _ _ _ _ h rfl
      (by
        intro x hx
        have : x ∈ (setup E).trace := by rw [hs]; exact hx
        exact (isSetup_facts x (setup_trace_isSetup E x this)).2.2.1)
    cases mid <;> simp at hmid
  | ready vsi ctx tr =>
    rw [hs] at h
    dsimp only at h
    obtain ⟨mid, hmid⟩ := split_after_events _ _ _ _ _ h rfl
      (by
        intro x hx
        have : x ∈ (setup E).trace := by rw [hs]; exact hx
        exact (isSetup_facts x (setup_trace_isSetup E x this)).2.2.1)
    exact read_loop_stops_at_failure E.decoder fuel vsi E.packets 8 ctx mid post r hmid hr

/-- Witness for C7: the second of three video packets is rejected by the
decoder; the run ends with the return of that call, and the third packet is
never read. -/
theorem main_stops_at_failed_packet_witness :
    (main (testEnv testDecoder audioVideo [pkt 1 1, pkt 1 99, pkt 1 1]) 5).trace
      = rejectedSecondPacket ++ Event.decode_packet_returned AVERROR_INVALIDDATA :: []
    ∧ AVERROR_INVALIDDATA < 0
    ∧ ([] : List Event) = [] :=
  ⟨rfl, by decide,
    main_stops_at_failed_packet
      (testEnv testDecoder audioVideo [pkt 1 1, pkt 1 99, pkt 1 1]) 5
      rejectedSecondPacket [] AVERROR_INVALIDDATA rfl (by decide)⟩

/-- C8, the failing input: one video stream whose first packet the decoder
rejects. `decode_packet` returns AVERROR_INVALIDDATA after printing its
diagnostic, the driver loop breaks, and `main` returns 0. -/
theorem main_returns_zero_after_decoder_failure :
    (main (testEnv testDecoder audioVideo [pkt 1 99, pkt 1 1]) 5).ret = some 0
    ∧ decodeReturns (main (testEnv testDecoder audioVideo [pkt 1 99, pkt 1 1]) 5).trace
        = [AVERROR_INVALIDDATA]
    ∧ AVERROR_INVALIDDATA < 0 := by
  decide

/-! ## Pipeline Driver: packets of other streams -/

theorem savedFiles_withoutReads (tr : List Event) :
    savedFiles (withoutReads tr) = savedFiles tr := by
  induction tr with
  | nil => rfl
  | cons e t ih =>
    unfold withoutReads at ih ⊢
    cases e
    all_goals
      first
        | (rw [List.filter_cons_of_pos (by rfl)]; simp only [savedFiles, ih])
        | (rw [List.filter_cons_of_neg (by simp [Event.isRead])]; simp only [savedFiles, ih])

theorem decodedPackets_withoutReads (tr : List Event) :
    decodedPackets (withoutReads tr) = decodedPackets tr := by
  induction tr with
  | nil => rfl
  | cons e t ih =>
    unfold withoutReads at ih ⊢
    cases e
    all_goals
      first
        | (rw [List.filter_cons_of_pos (by rfl)]; simp only [decodedPackets, ih])
        | (rw [List.filter_cons_of_neg (by simp [Event.isRead])]; simp only [decodedPackets, ih])

theorem read_loop_filter {σ : Type} (D : Decoder σ) (fuel : Nat) (vsi : Int) :
    ∀ (packets : List AVPacket) (b : Int) (ctx : σ),
      withoutReads (read_loop D fuel vsi packets b ctx).trace
        = withoutReads (read_loop D fuel vsi (videoPackets vsi packets) b ctx).trace
      ∧ (read_loop D fuel vsi packets b ctx).packets_to_process
        = (read_loop D fuel vsi (videoPackets vsi packets) b ctx).packets_to_process
      ∧ (read_loop D fuel vsi packets b ctx).ctx
        = (read_loop D fuel vsi (videoPackets vsi packets) b ctx).ctx
      ∧ (read_loop D fuel vsi packets b ctx).finished
        = (read_loop D fuel vsi (videoPackets vsi packets) b ctx).finished := by
  intro packets
  induction packets with
  | nil => intro b ctx; exact ⟨rfl, rfl, rfl, rfl⟩
  | cons packet rest ih =>
    intro b ctx
    by_cases hv : packet.stream_index = vsi
    · have hf : videoPackets vsi (packet :: rest) = packet :: videoPackets vsi rest := by
        unfold videoPackets
        rw [List.filter_cons_of_pos (by simpa using hv)]
      rw [hf]
      cases hret : (decode_packet D fuel packet ctx).ret with
      | none =>
        rw [read_loop_video_running D fuel vsi packet rest b ctx hv hret,
          read_loop_video_running D fuel vsi packet _ b ctx hv hret]
        exact ⟨rfl, rfl, rfl, rfl⟩
      | some response =>
        by_cases hneg : response < 0
        · rw [read_loop_video_failed D fuel vsi packet rest b ctx response hv hret hneg,
            read_loop_video_failed D fuel vsi packet _ b ctx response hv hret hneg]
          exact ⟨rfl, rfl, rfl, rfl⟩
        · by_cases hlast : b - 1 ≤ 0
          · rw [read_loop_video_last D fuel vsi packet rest b ctx response hv hret hneg hlast,
              read_loop_video_last D fuel vsi packet _ b ctx response hv hret hneg hlast]
            exact ⟨rfl, rfl, rfl, rfl⟩
          · rw [read_loop_video_next D fuel vsi packet rest b ctx response hv hret hneg hlast,
              read_loop_video_next D fuel vsi packet _ b ctx response hv hret hneg hlast]
            obtain ⟨h1, h2, h3, h4⟩ := ih (b - 1) (decode_packet D fuel packet ctx).ctx
            unfold LoopRun.after
            dsimp only
            refine ⟨?_, h2, h3, h4⟩
            simp only [withoutReads_append, h1]
    · have hf : videoPackets vsi (packet :: rest) = videoPackets vsi rest := by
        unfold videoPackets
        rw [List.filter_cons_of_neg (by simpa using hv)]
      rw [hf, read_loop_other D fuel vsi packet rest b ctx hv]
      obtain ⟨h1, h2, h3, h4⟩ := ih b ctx
      unfold LoopRun.after
      dsimp only
      refine ⟨?_, h2, h3, h4⟩
      simp only [withoutReads_append, h1]
      rfl

theorem processedPackets_append (a b : List Event) :
    processedPackets (a ++ b) = processedPackets a + processedPackets b := by
  unfold processedPackets
  rw [decodeReturns_append, List.filter_append, List.length_append]

theorem processedPackets_iteration {σ : Type} (D : Decoder σ) (fuel : Nat)
    (packet : AVPacket) (ctx : σ) :
    processedPackets
      ([.av_read_frame (some packet), .decode_packet packet]
        ++ (decode_packet D fuel packet ctx).trace) = 0 := by
  unfold processedPackets
  rw [decodeReturns_append, (decode_packet_projections D fuel packet ctx).2.1]
  rfl

theorem processedPackets_returned (response : Int) :
    processedPackets [.decode_packet_returned response]
      = if 0 ≤ response then 1 else 0 := by
  unfold processedPackets
  by_cases h : 0 ≤ response <;> simp [decodeReturns, h]

theorem read_loop_budget {σ : Type} (D : Decoder σ) (fuel : Nat) (vsi : Int) :
    ∀ (packets : List AVPacket) (b : Int) (ctx : σ),
      (read_loop D fuel vsi packets b ctx).packets_to_process
        = b - (processedPackets (read_loop D fuel vsi packets b ctx).trace : Int) := by
  intro packets
  induction packets with
  | nil =>
    intro b ctx
    simp [read_loop, processedPackets, decodeReturns]
  | cons packet rest ih =>
    intro b ctx
    by_cases hv : packet.stream_index = vsi
    · cases hret : (decode_packet D fuel packet ctx).ret with
      | none =>
        rw [read_loop_video_running D fuel vsi packet rest b ctx hv hret]
        dsimp only
        rw [processedPackets_iteration]
        simp
      | some response =>
        by_cases hneg : response < 0
        · rw [read_loop_video_failed D fuel vsi packet rest b ctx response hv hret hneg]
          dsimp only
          rw [processedPackets_append, processedPackets_iteration,
            processedPackets_returned, if_neg (by omega)]
          simp
        · by_cases hlast : b - 1 ≤ 0
          · rw [read_loop_video_last D fuel vsi packet rest b ctx response hv hret hneg hlast]
            dsimp only
            rw [processedPackets_append, processedPackets_iteration,
              processedPackets_returned, if_pos (by omega)]
            simp
          · rw [read_loop_video_next D fuel vsi packet rest b ctx response hv hret hneg hlast]
            have hrec := ih (b - 1) (decode_packet D fuel packet ctx).ctx
            unfold LoopRun.after
            dsimp only
            rw [processedPackets_append, processedPackets_append,
              processedPackets_iteration, processedPackets_returned, if_pos (by omega),
              hrec]
            push_cast
            omega
    · rw [read_loop_other D fuel vsi packet rest b ctx hv]
      have hrec := ih b ctx
      unfold LoopRun.after
      dsimp only
      rw [processedPackets_append, hrec]
      have : processedPackets [Event.av_read_frame (some packet)] = 0 := rfl
      rw [this]
      simp

/-- C10: in the driver loop a packet whose stream index differs from the
selected one is only read: the loop goes on with the same budget and the
same decoder state, without invoking `decode_packet`. For every packet
sequence the run is the same as on the video packets alone, apart from the
`av_read_frame` events: same `decode_packet` invocations, same files, same
decoder state, same final budget. The final budget is the initial one minus
the number of `decode_packet` calls that returned success. -/
theorem read_loop_ignores_other_streams {σ : Type} (D : Decoder σ) (fuel : Nat)
    (vsi : Int) (packets : List AVPacket) (b : Int) (ctx : σ) :
    (∀ packet rest, packet.stream_index ≠ vsi →
      read_loop D fuel vsi (packet :: rest) b ctx
        = LoopRun.after [.av_read_frame (some packet)] (read_loop D fuel vsi rest b ctx))
    ∧ withoutReads (read_loop D fuel vsi packets b ctx).trace
        = withoutReads (read_loop D fuel vsi (videoPackets vsi packets) b ctx).trace
    ∧ decodedPackets (read_loop D fuel vsi packets b ctx).trace
        = decodedPackets (read_loop D fuel vsi (videoPackets vsi packets) b ctx).trace
    ∧ savedFiles (read_loop D fuel vsi packets b ctx).trace
        = savedFiles (read_loop D fuel vsi (videoPackets vsi packets) b ctx).trace
    ∧ (read_loop D fuel vsi packets b ctx).ctx
        = (read_loop D fuel vsi (videoPackets vsi packets) b ctx).ctx
    ∧ (read_loop D fuel vsi packets b ctx).packets_to_process
        = (read_loop D fuel vsi (videoPackets vsi packets) b ctx).packets_to_process
    ∧ (read_loop D fuel vsi packets b ctx).packets_to_process
        = b - (processedPackets (read_loop D fuel vsi packets b ctx).trace : Int) := by
  obtain ⟨h1, h2, h3, _⟩ := read_loop_filter D fuel vsi packets b ctx
  refine ⟨fun packet rest hne => read_loop_other D fuel vsi packet rest b ctx hne,
    h1, ?_, ?_, h3, h2, read_loop_budget D fuel vsi packets b ctx⟩
  · rw [← decodedPackets_withoutReads, h1, decodedPackets_withoutReads]
  · rw [← savedFiles_withoutReads, h1, savedFiles_withoutReads]


/-- Witness for C10: audio packets interleaved with video packets; the
files written and the final budget are those of the video packets alone,
and two processed packets leave a budget of 6. -/
theorem read_loop_ignores_other_streams_witness :
    savedFiles (read_loop testDecoder 5 1 [pkt 0 3, pkt 1 2, pkt 0 1, pkt 1 1] 8
        testCtx0).trace
      = savedFiles (read_loop testDecoder 5 1
          (videoPackets 1 [pkt 0 3, pkt 1 2, pkt 0 1, pkt 1 1]) 8 testCtx0).trace
    ∧ (read_loop testDecoder 5 1 [pkt 0 3, pkt 1 2, pkt 0 1, pkt 1 1] 8
        testCtx0).packets_to_process
      = 8 - (processedPackets (read_loop testDecoder 5 1
          [pkt 0 3, pkt 1 2, pkt 0 1, pkt 1 1] 8 testCtx0).trace : Int)
    ∧ processedPackets (read_loop testDecoder 5 1
          [pkt 0 3, pkt 1 2, pkt 0 1, pkt 1 1] 8 testCtx0).trace = 2 :=
  ⟨(read_loop_ignores_other_streams testDecoder 5 1
      [pkt 0 3, pkt 1 2, pkt 0 1, pkt 1 1] 8 testCtx0).2.2.2.1,
    (read_loop_ignores_other_streams testDecoder 5 1
      [pkt 0 3, pkt 1 2, pkt 0 1, pkt 1 1] 8 testCtx0).2.2.2.2.2.2,
    by decide⟩

/-! ## File names -/

theorem toDigitsCore_length_le :
    ∀ (fuel n : Nat) (ds : List Char) (k : Nat), n < 10 ^ (k + 1) →
      (Nat.toDigitsCore 10 fuel n ds).length ≤ ds.length + (k + 1) := by
  intro fuel
  induction fuel with
  | zero => intro n ds k _; simp [Nat.toDigitsCore]
  | succ fuel ih =>
    intro n ds k hn
    unfold Nat.toDigitsCore
    dsimp only
    split
    · simp only [List.length_cons]; omega
    · rename_i hne
      cases k with
      | zero =>
        have : n / 10 = 0 := Nat.div_eq_of_lt (by simpa using hn)
        exact absurd this hne
      | succ k =>
        have hdiv : n / 10 < 10 ^ (k + 1) := by
          apply Nat.div_lt_of_lt_mul
          rw [Nat.pow_succ] at hn
          omega
        have := ih (n / 10) (Nat.digitChar (n % 10) :: ds) k hdiv
        simp only [List.length_cons] at this
        omega

theorem nat_toString_length (n : Nat) (h : n ≤ 2147483648) :
    (toString n).toList.length ≤ 10 := by
  have hlt : n < 10 ^ (9 + 1) := by
    have : (2147483648 : Nat) < 10 ^ (9 + 1) := by decide
    omega
  have := toDigitsCore_length_le (n + 1) n [] 9 hlt
  simpa using this

theorem int_toString_length (z : Int) (h1 : -2147483648 ≤ z) (h2 : z ≤ 2147483647) :
    (toString z).toList.length ≤ 11 := by
  cases z with
  | ofNat m =>
    have hm : m ≤ 2147483648 := by
      have : (m : Int) ≤ 2147483647 := h2
      omega
    have := nat_toString_length m hm
    show (toString m).toList.length ≤ 11
    omega
  | negSucc m =>
    have hm : m + 1 ≤ 2147483648 := by
      have : -((m : Int) + 1) = Int.negSucc m := rfl
      omega
    have := nat_toString_length (m + 1) hm
    show ("-" ++ toString (m + 1)).toList.length ≤ 11
    have e : ("-" ++ toString (m + 1)).toList = '-' :: (toString (m + 1)).toList := rfl
    rw [e, List.length_cons]
    omega

theorem frame_filename_in_range (z : Int) (h1 : -2147483648 ≤ z) (h2 : z ≤ 2147483647) :
    frame_filename z = "frame-" ++ toString z ++ ".pgm" := by
  have hlen := int_toString_length z h1 h2
  have e : "frame" ++ "-" ++ toString z ++ ".pgm" = "frame-" ++ toString z ++ ".pgm" := by
    have : ("frame" : String) ++ "-" = "frame-" := by decide
    rw [this]
  unfold frame_filename snprintf
  rw [e]
  have hl : ("frame-" ++ toString z ++ ".pgm").toList.length ≤ 1024 - 1 := by
    have e2 : ("frame-" ++ toString z ++ ".pgm").toList
        = "frame-".toList ++ (toString z).toList ++ ".pgm".toList := rfl
    rw [e2, List.length_append, List.length_append]
    have a : "frame-".toList.length = 6 := by decide
    have b : ".pgm".toList.length = 4 := by decide
    omega
  rw [List.take_of_length_le hl]
  rfl

theorem frameNames_succ (c : Int) (k : Nat) :
    frameNames c (k + 1)
      = ("frame-" ++ toString (c + 1) ++ ".pgm") :: frameNames (c + 1) k := by
  unfold frameNames
  rw [List.range_succ_eq_map, List.map_cons, List.map_map]
  congr 1
  apply List.map_congr_left
  intro i _
  simp only [Function.comp_apply, Nat.succ_eq_add_one]
  have : c + ((i + 1 + 1 : Nat) : Int) = c + 1 + ((i + 1 : Nat) : Int) := by
    push_cast; omega
  rw [this]

theorem frameNames_length (c : Int) (k : Nat) : (frameNames c k).length = k := by
  simp [frameNames]

theorem frameNames_append (c : Int) (m n : Nat) :
    frameNames c m ++ frameNames (c + (m : Int)) n = frameNames c (m + n) := by
  induction m generalizing c with
  | zero => simp [frameNames]
  | succ m ih =>
    have e : m + 1 + n = (m + n) + 1 := by omega
    rw [e, frameNames_succ, frameNames_succ, List.cons_append]
    congr 1
    have e2 : c + ((m + 1 : Nat) : Int) = c + 1 + (m : Int) := by push_cast; omega
    rw [e2]
    exact ih (c + 1)

/-! ## Packet Decoder: the drain loop, step by step -/

theorem drain_step_done {σ : Type} (D : Decoder σ) (fuel : Nat) (response : Int) (ctx : σ)
    (h0 : 0 ≤ response)
    (hend : (D.avcodec_receive_frame ctx).1 = AVERROR_EAGAIN
      ∨ (D.avcodec_receive_frame ctx).1 = AVERROR_EOF) :
    drain D (fuel + 1) response ctx
      = ⟨some 0, [.avcodec_receive_frame (D.avcodec_receive_frame ctx).1],
          (D.avcodec_receive_frame ctx).2.2⟩ := by
  rw [drain, if_pos h0]
  dsimp only
  rw [if_pos hend]

theorem drain_step_error {σ : Type} (D : Decoder σ) (fuel : Nat) (response : Int) (ctx : σ)
    (h0 : 0 ≤ response)
    (hend : ¬ ((D.avcodec_receive_frame ctx).1 = AVERROR_EAGAIN
      ∨ (D.avcodec_receive_frame ctx).1 = AVERROR_EOF))
    (hneg : (D.avcodec_receive_frame ctx).1 < 0) :
    drain D (fuel + 1) response ctx
      = ⟨some (D.avcodec_receive_frame ctx).1,
          [.avcodec_receive_frame (D.avcodec_receive_frame ctx).1,
           .stderr (.receiving_frame (D.avcodec_receive_frame ctx).1)],
          (D.avcodec_receive_frame ctx).2.2⟩ := by
  rw [drain, if_pos h0]
  dsimp only
  rw [if_neg hend, if_pos hneg]

theorem nonneg_not_end (r : Int) (h : 0 ≤ r) : ¬ (r = AVERROR_EAGAIN ∨ r = AVERROR_EOF) := by
  unfold AVERROR_EAGAIN AVERROR_EOF
  omega

theorem drain_step_frame {σ : Type} (D : Decoder σ) (fuel : Nat) (response : Int) (ctx : σ)
    (h0 : 0 ≤ response) (hok : 0 ≤ (D.avcodec_receive_frame ctx).1) :
    drain D (fuel + 1) response ctx
      = Run.after
          [.avcodec_receive_frame (D.avcodec_receive_frame ctx).1,
           .save_gray_frame
             (frame_filename (D.frame_number (D.avcodec_receive_frame ctx).2.2))
             (D.avcodec_receive_frame ctx).2.1]
          (drain D fuel (D.avcodec_receive_frame ctx).1 (D.avcodec_receive_frame ctx).2.2) := by
  rw [drain, if_pos h0]
  dsimp only
  rw [if_neg (nonneg_not_end _ hok), if_neg (by omega)]

theorem decode_packet_rejected {σ : Type} (D : Decoder σ) (fuel : Nat) (packet : AVPacket)
    (ctx : σ) (h : (D.avcodec_send_packet ctx packet).1 < 0) :
    decode_packet D fuel packet ctx
      = ⟨some (D.avcodec_send_packet ctx packet).1,
          [.avcodec_send_packet (D.avcodec_send_packet ctx packet).1,
           .stderr (.sending_packet (D.avcodec_send_packet ctx packet).1)],
          (D.avcodec_send_packet ctx packet).2⟩ := by
  unfold decode_packet
  dsimp only
  rw [if_pos h]

theorem decode_packet_accepted {σ : Type} (D : Decoder σ) (fuel : Nat) (packet : AVPacket)
    (ctx : σ) (h : 0 ≤ (D.avcodec_send_packet ctx packet).1) :
    decode_packet D fuel packet ctx
      = Run.after [.avcodec_send_packet (D.avcodec_send_packet ctx packet).1]
          (drain D fuel (D.avcodec_send_packet ctx packet).1
            (D.avcodec_send_packet ctx packet).2) := by
  unfold decode_packet
  dsimp only
  rw [if_neg (by omega)]

/-! ## Packet Decoder: a packet that decodes into `k` frames -/

theorem drain_k_frames {σ : Type} (D : Decoder σ) :
    ∀ (k fuel : Nat) (response : Int) (ctx : σ) (c : Int),
      0 ≤ response → k < fuel →
      (∀ i, i < k → 0 ≤ (D.avcodec_receive_frame (receive_n D i ctx)).1) →
      ((D.avcodec_receive_frame (receive_n D k ctx)).1 = AVERROR_EAGAIN
        ∨ (D.avcodec_receive_frame (receive_n D k ctx)).1 = AVERROR_EOF) →
      D.frame_number ctx = c →
      (∀ i, i < k →
        D.frame_number (receive_n D (i + 1) ctx) = D.frame_number (receive_n D i ctx) + 1) →
      -2147483648 ≤ c → c + (k : Int) ≤ 2147483647 →
      (drain D fuel response ctx).ret = some 0
      ∧ savedFiles (drain D fuel response ctx).trace = frameNames c k
      ∧ (receiveResponses (drain D fuel response ctx).trace).length = k + 1
      ∧ (drain D fuel response ctx).ctx = receive_n D (k + 1) ctx := by
  intro k
  induction k with
  | zero =>
    intro fuel response ctx c h0 hfuel _ hend _ _ _ _
    obtain ⟨f, rfl⟩ : ∃ f, fuel = f + 1 := ⟨fuel - 1, by omega⟩
    rw [drain_step_done D f response ctx h0 hend]
    exact ⟨rfl, rfl, rfl, rfl⟩
  | succ k ih =>
    intro fuel response ctx c h0 hfuel hframes hend hc hinc hlo hhi
    obtain ⟨f, rfl⟩ : ∃ f, fuel = f + 1 := ⟨fuel - 1, by omega⟩
    have hok : 0 ≤ (D.avcodec_receive_frame ctx).1 := hframes 0 (Nat.succ_pos k)
    have hc1 : D.frame_number (D.avcodec_receive_frame ctx).2.2 = c + 1 := by
      have := hinc 0 (Nat.succ_pos k)
      simp only [receive_n] at this
      rw [this, hc]
    have hrec := ih f (D.avcodec_receive_frame ctx).1 (D.avcodec_receive_frame ctx).2.2
      (c + 1) hok (by omega)
      (fun i hi => hframes (i + 1) (Nat.succ_lt_succ hi))
      hend hc1
      (fun i hi => hinc (i + 1) (Nat.succ_lt_succ hi))
      (by omega) (by push_cast at hhi; omega)
    obtain ⟨hret, hfiles, hcount, hctx⟩ := hrec
    rw [drain_step_frame D f response ctx h0 hok]
    unfold Run.after
    dsimp only
    refine ⟨hret, ?_, ?_, hctx⟩
    · rw [savedFiles_append, hfiles, hc1,
        frame_filename_in_range (c + 1) (by omega) (by push_cast at hhi; omega),
        frameNames_succ]
      rfl
    · rw [receiveResponses_append, List.length_append, hcount]
      simp [receiveResponses]
      omega

/-- C5: when the submission of a packet succeeds and the decoder then
yields `k` frames followed by EAGAIN or end of stream, with the frame
counter equal to `c` before the call, untouched by the submission and
incremented by one per frame received (the counter is a C `int`, so `c` and
`c + k` are in its range), `decode_packet` returns 0 once the drain loop is
given more than `k` iterations, has called `save_gray_frame` exactly `k`
times, with the names `frame-(c+1).pgm`, ..., `frame-(c+k).pgm` in that
order, and has requested `k + 1` frames. -/
theorem decode_packet_writes_k_files {σ : Type} (D : Decoder σ) (fuel : Nat)
    (packet : AVPacket) (ctx : σ) (k : Nat) (c : Int)
    (hsend : 0 ≤ (D.avcodec_send_packet ctx packet).1)
    (hframes : ∀ i, i < k →
      0 ≤ (D.avcodec_receive_frame (receive_n D i (D.avcodec_send_packet ctx packet).2)).1)
    (hend :
      (D.avcodec_receive_frame (receive_n D k (D.avcodec_send_packet ctx packet).2)).1
        = AVERROR_EAGAIN
      ∨ (D.avcodec_receive_frame (receive_n D k (D.avcodec_send_packet ctx packet).2)).1
        = AVERROR_EOF)
    (hc : D.frame_number ctx = c)
    (hsubmit : D.frame_number (D.avcodec_send_packet ctx packet).2 = D.frame_number ctx)
    (hinc : ∀ i, i < k →
      D.frame_number (receive_n D (i + 1) (D.avcodec_send_packet ctx packet).2)
        = D.frame_number (receive_n D i (D.avcodec_send_packet ctx packet).2) + 1)
    (hlo : -2147483648 ≤ c) (hhi : c + (k : Int) ≤ 2147483647)
    (hfuel : k < fuel) :
    (decode_packet D fuel packet ctx).ret = some 0
    ∧ savedFiles (decode_packet D fuel packet ctx).trace = frameNames c k
    ∧ (savedFiles (decode_packet D fuel packet ctx).trace).length = k
    ∧ (receiveResponses (decode_packet D fuel packet ctx).trace).length = k + 1 := by
  obtain ⟨hret, hfiles, hcount, _⟩ :=
    drain_k_frames D k fuel (D.avcodec_send_packet ctx packet).1
      (D.avcodec_send_packet ctx packet).2 c hsend hfuel hframes hend
      (by rw [hsubmit, hc]) hinc hlo hhi
  rw [decode_packet_accepted D fuel packet ctx hsend]
  unfold Run.after
  dsimp only
  have hf : savedFiles
      ([Event.avcodec_send_packet (D.avcodec_send_packet ctx packet).1]
        ++ (drain D fuel (D.avcodec_send_packet ctx packet).1
            (D.avcodec_send_packet ctx packet).2).trace) = frameNames c k := by
    rw [savedFiles_append, hfiles]
    rfl
  refine ⟨hret, hf, ?_, ?_⟩
  · rw [hf, frameNames_length]
  · rw [receiveResponses_append, List.length_append, hcount]
    simp [receiveResponses]

/-- Witness for C5: a packet that decodes into 3 frames, the counter being
4 before the call: the files are `frame-5.pgm`, `frame-6.pgm`,
`frame-7.pgm`. -/
theorem decode_packet_writes_k_files_witness :
    (decode_packet testDecoder 5 (pkt 1 3) ⟨0, false, 4⟩).ret = some 0
    ∧ savedFiles (decode_packet testDecoder 5 (pkt 1 3) ⟨0, false, 4⟩).trace
        = frameNames 4 3
    ∧ (savedFiles (decode_packet testDecoder 5 (pkt 1 3) ⟨0, false, 4⟩).trace).length = 3
    ∧ (receiveResponses (decode_packet testDecoder 5 (pkt 1 3) ⟨0, false, 4⟩).trace).length
        = 3 + 1 :=
  decode_packet_writes_k_files testDecoder 5 (pkt 1 3) ⟨0, false, 4⟩ 3 4
    (by decide) (by decide) (by decide) rfl rfl (by decide) (by decide) (by decide)
    (by decide)

/-! ## Packet Decoder: return value -/

theorem drain_returns_zero_iff {σ : Type} (D : Decoder σ) :
    ∀ (fuel : Nat) (response : Int) (ctx : σ), 0 ≤ response →
      ((drain D fuel response ctx).ret = some 0
        ↔ ∃ r, (receiveResponses (drain D fuel response ctx).trace).getLast? = some r
            ∧ (r = AVERROR_EAGAIN ∨ r = AVERROR_EOF)) := by
  intro fuel
  induction fuel with
  | zero =>
    intro response ctx h0
    rw [drain, if_pos h0]
    simp [receiveResponses]
  | succ fuel ih =>
    intro response ctx h0
    by_cases hend : (D.avcodec_receive_frame ctx).1 = AVERROR_EAGAIN
        ∨ (D.avcodec_receive_frame ctx).1 = AVERROR_EOF
    · rw [drain_step_done D fuel response ctx h0 hend]
      simp only [receiveResponses, List.getLast?_singleton, Option.some.injEq, true_iff]
      exact ⟨_, rfl, hend⟩
    · by_cases hneg : (D.avcodec_receive_frame ctx).1 < 0
      · rw [drain_step_error D fuel response ctx h0 hend hneg]
        simp only [receiveResponses, List.getLast?_singleton, Option.some.injEq]
        constructor
        · intro h; omega
        · rintro ⟨r, hr, hr2⟩
          rw [← hr] at hr2
          exact absurd hr2 hend
      · have hok : 0 ≤ (D.avcodec_receive_frame ctx).1 := by omega
        rw [drain_step_frame D fuel response ctx h0 hok]
        have hrec := ih (D.avcodec_receive_frame ctx).1 (D.avcodec_receive_frame ctx).2.2 hok
        unfold Run.after
        dsimp only
        have htr : receiveResponses
            ([Event.avcodec_receive_frame (D.avcodec_receive_frame ctx).1,
              Event.save_gray_frame
                (frame_filename (D.frame_number (D.avcodec_receive_frame ctx).2.2))
                (D.avcodec_receive_frame ctx).2.1]
              ++ (drain D fuel (D.avcodec_receive_frame ctx).1
                  (D.avcodec_receive_frame ctx).2.2).trace)
            = (D.avcodec_receive_frame ctx).1
              :: receiveResponses (drain D fuel (D.avcodec_receive_frame ctx).1
                  (D.avcodec_receive_frame ctx).2.2).trace := by
          rw [receiveResponses_append]
          rfl
        rw [htr, hrec]
        generalize receiveResponses
            (drain D fuel (D.avcodec_receive_frame ctx).1
              (D.avcodec_receive_frame ctx).2.2).trace = l
        cases l with
        | nil =>
          simp only [List.getLast?_nil, List.getLast?_singleton, Option.some.injEq]
          constructor
          · rintro ⟨r, hr, _⟩
            exact Option.noConfusion hr
          · rintro ⟨r, hr, hr2⟩
            rw [← hr] at hr2
            exact absurd hr2 hend
        | cons x xs => rw [List.getLast?_cons_cons]

theorem drain_receive_failure {σ : Type} (D : Decoder σ) :
    ∀ (fuel : Nat) (response : Int) (ctx : σ) (pre post : List Event) (r : Int),
      0 ≤ response →
      (drain D fuel response ctx).trace = pre ++ Event.avcodec_receive_frame r :: post →
      r < 0 → r ≠ AVERROR_EAGAIN → r ≠ AVERROR_EOF →
      (drain D fuel response ctx).ret = some r ∧ savedFiles post = [] := by
  intro fuel
  induction fuel with
  | zero =>
    intro response ctx pre post r h0 h _ _ _
    rw [drain, if_pos h0] at h
    cases pre <;> simp at h
  | succ fuel ih =>
    intro response ctx pre post r h0 h hr hr1 hr2
    by_cases hend : (D.avcodec_receive_frame ctx).1 = AVERROR_EAGAIN
        ∨ (D.avcodec_receive_frame ctx).1 = AVERROR_EOF
    · rw [drain_step_done D fuel response ctx h0 hend] at h
      dsimp only at h
      cases pre with
      | nil =>
        simp only [List.nil_append, List.cons.injEq, Event.avcodec_receive_frame.injEq] at h
        rw [h.1] at hend
        rcases hend with e | e
        · exact absurd e hr1
        · exact absurd e hr2
      | cons y pre => cases pre <;> simp at h
    · by_cases hneg : (D.avcodec_receive_frame ctx).1 < 0
      · rw [drain_step_error D fuel response ctx h0 hend hneg] at h ⊢
        dsimp only at h ⊢
        cases pre with
        | nil =>
          simp only [List.nil_append, List.cons.injEq, Event.avcodec_receive_frame.injEq] at h
          rw [← h.2, h.1]
          exact ⟨rfl, rfl⟩
        | cons y pre =>
          cases pre with
          | nil => simp at h
          | cons z pre => cases pre <;> simp at h
      · have hok : 0 ≤ (D.avcodec_receive_frame ctx).1 := by omega
        rw [drain_step_frame D fuel response ctx h0 hok] at h ⊢
        unfold Run.after at h ⊢
        dsimp only at h ⊢
        cases pre with
        | nil =>
          simp only [List.nil_append, List.cons_append, List.cons.injEq,
            Event.avcodec_receive_frame.injEq] at h
          omega
        | cons y pre =>
          cases pre with
          | nil => simp at h
          | cons z pre =>
            simp only [List.cons_append, List.nil_append, List.cons.injEq] at h
            exact ih _ _ pre post r hok h.2.2 hr hr1 hr2

theorem drain_returns {σ : Type} (D : Decoder σ) :
    ∀ (fuel : Nat) (response : Int) (ctx : σ) (n : Nat), n < fuel →
      (D.avcodec_receive_frame (receive_n D n ctx)).1 < 0 →
      (drain D fuel response ctx).ret ≠ none := by
  intro fuel
  induction fuel with
  | zero => intro response ctx n hn; omega
  | succ fuel ih =>
    intro response ctx n hn hfail
    by_cases h0 : 0 ≤ response
    · by_cases hend : (D.avcodec_receive_frame ctx).1 = AVERROR_EAGAIN
          ∨ (D.avcodec_receive_frame ctx).1 = AVERROR_EOF
      · rw [drain_step_done D fuel response ctx h0 hend]; simp
      · by_cases hneg : (D.avcodec_receive_frame ctx).1 < 0
        · rw [drain_step_error D fuel response ctx h0 hend hneg]; simp
        · have hok : 0 ≤ (D.avcodec_receive_frame ctx).1 := by omega
          rw [drain_step_frame D fuel response ctx h0 hok]
          cases n with
          | zero => exact absurd hfail hneg
          | succ n =>
            exact ih _ _ n (by omega) hfail
    · rw [drain, if_neg h0]; simp

/-- C6: (1) when the submission is rejected, `decode_packet` returns that
negative code without requesting a frame or writing a file; (2) it returns 0
exactly when the submission succeeded and the last frame request ended on
EAGAIN or end of stream; (3) when a frame request fails with any other
negative code, `decode_packet` returns that code and no file is written for
or after that request; (4) it does return as soon as one of the first
`fuel` frame requests yields a negative code. -/
theorem decode_packet_result {σ : Type} (D : Decoder σ) (fuel : Nat)
    (packet : AVPacket) (ctx : σ) :
    ((D.avcodec_send_packet ctx packet).1 < 0 →
      (decode_packet D fuel packet ctx).ret = some (D.avcodec_send_packet ctx packet).1
      ∧ receiveResponses (decode_packet D fuel packet ctx).trace = []
      ∧ savedFiles (decode_packet D fuel packet ctx).trace = [])
    ∧ ((decode_packet D fuel packet ctx).ret = some 0
        ↔ 0 ≤ (D.avcodec_send_packet ctx packet).1
          ∧ ∃ r, (receiveResponses (decode_packet D fuel packet ctx).trace).getLast? = some r
              ∧ (r = AVERROR_EAGAIN ∨ r = AVERROR_EOF))
    ∧ (∀ pre post r,
        (decode_packet D fuel packet ctx).trace
          = pre ++ Event.avcodec_receive_frame r :: post →
        r < 0 → r ≠ AVERROR_EAGAIN → r ≠ AVERROR_EOF →
        (decode_packet D fuel packet ctx).ret = some r ∧ savedFiles post = [])
    ∧ (∀ n, n < fuel →
        (D.avcodec_receive_frame (receive_n D n (D.avcodec_send_packet ctx packet).2)).1 < 0 →
        (decode_packet D fuel packet ctx).ret ≠ none) := by
  by_cases hsend : (D.avcodec_send_packet ctx packet).1 < 0
  · rw [decode_packet_rejected D fuel packet ctx hsend]
    dsimp only
    refine ⟨fun _ => ⟨rfl, rfl, rfl⟩, ?_, ?_, fun _ _ _ => by simp⟩
    · constructor
      · intro h
        simp only [Option.some.injEq] at h
        omega
      · rintro ⟨h, _⟩
        omega
    · intro pre post r h _ _ _
      cases pre with
      | nil => simp at h
      | cons y pre =>
        cases pre with
        | nil => simp at h
        | cons z pre => cases pre <;> simp at h
  · have hok : 0 ≤ (D.avcodec_send_packet ctx packet).1 := by omega
    rw [decode_packet_accepted D fuel packet ctx hok]
    unfold Run.after
    dsimp only
    have htr : receiveResponses
        ([Event.avcodec_send_packet (D.avcodec_send_packet ctx packet).1]
          ++ (drain D fuel (D.avcodec_send_packet ctx packet).1
              (D.avcodec_send_packet ctx packet).2).trace)
        = receiveResponses (drain D fuel (D.avcodec_send_packet ctx packet).1
              (D.avcodec_send_packet ctx packet).2).trace := by
      rw [receiveResponses_append]
      rfl
    refine ⟨fun h => absurd h hsend, ?_, ?_, ?_⟩
    · rw [htr, drain_returns_zero_iff D fuel _ _ hok]
      exact ⟨fun h => ⟨hok, h⟩, fun h => h.2⟩
    · intro pre post r h hr hr1 hr2
      cases pre with
      | nil => simp at h
      | cons y pre =>
        simp only [List.cons_append, List.nil_append, List.cons.injEq] at h
        exact drain_receive_failure D fuel _ _ pre post r hok h.2 hr hr1 hr2
    · intro n hn hfail
      exact drain_returns D fuel _ _ n hn hfail

/-- Witness for C6: a rejected packet, and a packet whose second frame
request fails with `-5` after one frame was written. -/
theorem decode_packet_result_witness :
    ((decode_packet testDecoder 5 (pkt 1 99) testCtx0).ret = some AVERROR_INVALIDDATA
      ∧ receiveResponses (decode_packet testDecoder 5 (pkt 1 99) testCtx0).trace = []
      ∧ savedFiles (decode_packet testDecoder 5 (pkt 1 99) testCtx0).trace = [])
    ∧ ((decode_packet testDecoder 5 (pkt 1 98) testCtx0).ret = some (-5)
      ∧ savedFiles [Event.stderr (Diag.receiving_frame (-5))] = []) :=
  ⟨(decode_packet_result testDecoder 5 (pkt 1 99) testCtx0).1 (by decide),
    (decode_packet_result testDecoder 5 (pkt 1 98) testCtx0).2.2.1
      [Event.avcodec_send_packet 0, Event.avcodec_receive_frame 0,
        Event.save_gray_frame "frame-1.pgm" testFrame]
      [Event.stderr (Diag.receiving_frame (-5))] (-5) rfl
      (by decide) (by decide) (by decide)⟩

/-! ## Files written over a whole run -/

theorem frameNames_one (c : Int) :
    frameNames c 1 = ["frame-" ++ toString (c + 1) ++ ".pgm"] := by
  rw [frameNames_succ]
  rfl

theorem drain_no_frame {σ : Type} (D : Decoder σ) (hcount : CountsFrames D)
    (fuel : Nat) (response : Int) (ctx : σ)
    (hfail : (D.avcodec_receive_frame ctx).1 < 0) :
    savedFiles (drain D fuel response ctx).trace = []
    ∧ D.frame_number (drain D fuel response ctx).ctx = D.frame_number ctx := by
  cases fuel with
  | zero =>
    rw [drain]
    split <;> exact ⟨rfl, rfl⟩
  | succ fuel =>
    by_cases h0 : 0 ≤ response
    · by_cases hend : (D.avcodec_receive_frame ctx).1 = AVERROR_EAGAIN
          ∨ (D.avcodec_receive_frame ctx).1 = AVERROR_EOF
      · rw [drain_step_done D fuel response ctx h0 hend]
        exact ⟨rfl, hcount.2.2 ctx hfail⟩
      · rw [drain_step_error D fuel response ctx h0 hend hfail]
        exact ⟨rfl, hcount.2.2 ctx hfail⟩
    · rw [drain, if_neg h0]
      exact ⟨rfl, rfl⟩

theorem drain_one_frame {σ : Type} (D : Decoder σ) (hcount : CountsFrames D)
    (hone : OneFrameAtATime D) (fuel : Nat) (response : Int) (ctx : σ) (c : Int)
    (hc : D.frame_number ctx = c) (hlo : -2147483648 ≤ c) (hhi : c + 1 ≤ 2147483647) :
    ∃ m : Nat, m ≤ 1 ∧ savedFiles (drain D fuel response ctx).trace = frameNames c m
      ∧ D.frame_number (drain D fuel response ctx).ctx = c + (m : Int) := by
  by_cases hfail : (D.avcodec_receive_frame ctx).1 < 0
  · obtain ⟨h1, h2⟩ := drain_no_frame D hcount fuel response ctx hfail
    exact ⟨0, by omega, by rw [h1]; rfl, by rw [h2, hc]; simp⟩
  · have hok : 0 ≤ (D.avcodec_receive_frame ctx).1 := by omega
    cases fuel with
    | zero =>
      refine ⟨0, by omega, ?_, ?_⟩
      · rw [drain]; split <;> rfl
      · rw [drain]; split <;> simp [hc]
    | succ fuel =>
      by_cases h0 : 0 ≤ response
      · rw [drain_step_frame D fuel response ctx h0 hok]
        obtain ⟨h1, h2⟩ := drain_no_frame D hcount fuel (D.avcodec_receive_frame ctx).1
          (D.avcodec_receive_frame ctx).2.2 (hone ctx hok)
        have hc1 : D.frame_number (D.avcodec_receive_frame ctx).2.2 = c + 1 := by
          rw [hcount.2.1 ctx hok, hc]
        refine ⟨1, le_refl 1, ?_, ?_⟩
        · unfold Run.after
          dsimp only
          rw [savedFiles_append, h1, hc1, frame_filename_in_range (c + 1) (by omega) hhi,
            frameNames_one]
          rfl
        · unfold Run.after
          dsimp only
          rw [h2, hc1]
          rfl
      · refine ⟨0, by omega, ?_, ?_⟩
        · rw [drain, if_neg h0]; rfl
        · rw [drain, if_neg h0]; simp [hc]

theorem decode_packet_one_frame {σ : Type} (D : Decoder σ) (hcount : CountsFrames D)
    (hone : OneFrameAtATime D) (fuel : Nat) (packet : AVPacket) (ctx : σ) (c : Int)
    (hc : D.frame_number ctx = c) (hlo : -2147483648 ≤ c) (hhi : c + 1 ≤ 2147483647) :
    ∃ m : Nat, m ≤ 1 ∧ savedFiles (decode_packet D fuel packet ctx).trace = frameNames c m
      ∧ D.frame_number (decode_packet D fuel packet ctx).ctx = c + (m : Int) := by
  by_cases hsend : (D.avcodec_send_packet ctx packet).1 < 0
  · rw [decode_packet_rejected D fuel packet ctx hsend]
    exact ⟨0, by omega, rfl, by dsimp only; rw [hcount.1 ctx packet, hc]; simp⟩
  · have hok : 0 ≤ (D.avcodec_send_packet ctx packet).1 := by omega
    obtain ⟨m, hm, hfiles, hnum⟩ := drain_one_frame D hcount hone fuel
      (D.avcodec_send_packet ctx packet).1 (D.avcodec_send_packet ctx packet).2 c
      (by rw [hcount.1 ctx packet, hc]) hlo hhi
    rw [decode_packet_accepted D fuel packet ctx hok]
    refine ⟨m, hm, ?_, hnum⟩
    unfold Run.after
    dsimp only
    rw [savedFiles_append, hfiles]
    rfl

theorem decode_packet_returns_one_frame {σ : Type} (D : Decoder σ)
    (hone : OneFrameAtATime D) (fuel : Nat) (hfuel : 2 ≤ fuel) (packet : AVPacket)
    (ctx : σ) : (decode_packet D fuel packet ctx).ret ≠ none := by
  by_cases hsend : (D.avcodec_send_packet ctx packet).1 < 0
  · rw [decode_packet_rejected D fuel packet ctx hsend]
    simp
  · rw [decode_packet_accepted D fuel packet ctx (by omega)]
    unfold Run.after
    dsimp only
    by_cases h : (D.avcodec_receive_frame (D.avcodec_send_packet ctx packet).2).1 < 0
    · exact drain_returns D fuel _ _ 0 (by omega) h
    · exact drain_returns D fuel _ _ 1 (by omega) (hone _ (by omega))

theorem savedFiles_iteration {σ : Type} (D : Decoder σ) (fuel : Nat)
    (packet : AVPacket) (ctx : σ) :
    savedFiles
      ([.av_read_frame (some packet), .decode_packet packet]
        ++ (decode_packet D fuel packet ctx).trace)
      = savedFiles (decode_packet D fuel packet ctx).trace := by
  rw [savedFiles_append]
  rfl

theorem savedFiles_iteration_returned {σ : Type} (D : Decoder σ) (fuel : Nat)
    (packet : AVPacket) (ctx : σ) (response : Int) :
    savedFiles
      ([.av_read_frame (some packet), .decode_packet packet]
        ++ (decode_packet D fuel packet ctx).trace
        ++ [.decode_packet_returned response])
      = savedFiles (decode_packet D fuel packet ctx).trace := by
  rw [savedFiles_append, savedFiles_iteration]
  simp [savedFiles]

theorem read_loop_files {σ : Type} (D : Decoder σ) (hcount : CountsFrames D)
    (hone : OneFrameAtATime D) (fuel : Nat) (vsi : Int) :
    ∀ (packets : List AVPacket) (b : Int) (ctx : σ) (c : Int),
      D.frame_number ctx = c → -2147483648 ≤ c → 1 ≤ b → c + b ≤ 2147483647 →
      ∃ N : Nat, (N : Int) ≤ b
        ∧ savedFiles (read_loop D fuel vsi packets b ctx).trace = frameNames c N
        ∧ N ≤ (decodedPackets (read_loop D fuel vsi packets b ctx).trace).length := by
  intro packets
  induction packets with
  | nil =>
    intro b ctx c _ _ hb _
    exact ⟨0, by simpa using (by omega : (0 : Int) ≤ b), rfl, Nat.zero_le _⟩
  | cons packet rest ih =>
    intro b ctx c hc hlo hb hhi
    by_cases hv : packet.stream_index = vsi
    · obtain ⟨m, hm, hfiles, hnum⟩ := decode_packet_one_frame D hcount hone fuel packet ctx c
        hc hlo (by omega)
      cases hret : (decode_packet D fuel packet ctx).ret with
      | none =>
        rw [read_loop_video_running D fuel vsi packet rest b ctx hv hret]
        dsimp only
        rw [savedFiles_iteration, decodedPackets_iteration]
        exact ⟨m, by omega, hfiles, by simpa using hm⟩
      | some response =>
        by_cases hneg : response < 0
        · rw [read_loop_video_failed D fuel vsi packet rest b ctx response hv hret hneg]
          dsimp only
          rw [savedFiles_iteration_returned, decodedPackets_iteration_returned]
          exact ⟨m, by omega, hfiles, by simpa using hm⟩
        · by_cases hlast : b - 1 ≤ 0
          · rw [read_loop_video_last D fuel vsi packet rest b ctx response hv hret hneg hlast]
            dsimp only
            rw [savedFiles_iteration_returned, decodedPackets_iteration_returned]
            exact ⟨m, by omega, hfiles, by simpa using hm⟩
          · rw [read_loop_video_next D fuel vsi packet rest b ctx response hv hret hneg hlast]
            obtain ⟨N, hN, hNfiles, hNdec⟩ := ih (b - 1) (decode_packet D fuel packet ctx).ctx
              (c + (m : Int)) hnum (by omega) (by omega) (by omega)
            unfold LoopRun.after
            dsimp only
            rw [savedFiles_append, savedFiles_iteration_returned, decodedPackets_append,
              decodedPackets_iteration_returned, hfiles, hNfiles, frameNames_append]
            refine ⟨m + N, by push_cast; omega, rfl, ?_⟩
            simp only [List.length_append, List.length_singleton]
            omega
    · rw [read_loop_other D fuel vsi packet rest b ctx hv]
      obtain ⟨N, hN, hNfiles, hNdec⟩ := ih b ctx c hc hlo hb hhi
      unfold LoopRun.after
      dsimp only
      rw [savedFiles_append, decodedPackets_append]
      exact ⟨N, hN, hNfiles, hNdec⟩

theorem read_loop_finishes {σ : Type} (D : Decoder σ) (fuel : Nat) (vsi : Int)
    (hret : ∀ packet ctx, (decode_packet D fuel packet ctx).ret ≠ none) :
    ∀ (packets : List AVPacket) (b : Int) (ctx : σ),
      (read_loop D fuel vsi packets b ctx).finished = true := by
  intro packets
  induction packets with
  | nil => intro b ctx; rfl
  | cons packet rest ih =>
    intro b ctx
    by_cases hv : packet.stream_index = vsi
    · cases hr : (decode_packet D fuel packet ctx).ret with
      | none => exact absurd hr (hret packet ctx)
      | some response =>
        by_cases hneg : response < 0
        · rw [read_loop_video_failed D fuel vsi packet rest b ctx response hv hr hneg]
        · by_cases hlast : b - 1 ≤ 0
          · rw [read_loop_video_last D fuel vsi packet rest b ctx response hv hr hneg hlast]
          · rw [read_loop_video_next D fuel vsi packet rest b ctx response hv hr hneg hlast]
            exact ih (b - 1) _
    · rw [read_loop_other D fuel vsi packet rest b ctx hv]
      exact ih b ctx

/-- C9 (amended): in a run of `main` whose set-up succeeds, with a decoder
that counts frames from 0 and never hands out two frames in a row (at most
one frame per packet), the files written are `frame-1.pgm`, ...,
`frame-N.pgm` for some `N ≤ 8`, `N` being at most the number of packets
handed to `decode_packet`; and with two drain iterations or more allowed,
`main` returns 0. -/
theorem main_writes_at_most_8_files {σ : Type} (E : Env σ) (fuel : Nat)
    (vsi : Int) (ctx : σ) (tr : List Event)
    (hs : setup E = .ready vsi ctx tr)
    (hzero : E.decoder.frame_number ctx = 0)
    (hcount : CountsFrames E.decoder) (hone : OneFrameAtATime E.decoder) :
    ∃ N : Nat, N ≤ 8
      ∧ savedFiles (main E fuel).trace = frameNames 0 N
      ∧ N ≤ (decodedPackets (main E fuel).trace).length
      ∧ (2 ≤ fuel → (main E fuel).ret = some 0) := by
  have hsetup : savedFiles tr = [] ∧ decodedPackets tr = [] := by
    have hall : ∀ e, e ∈ tr → e.isSetup = true := by
      intro e he
      have : e ∈ (setup E).trace := by rw [hs]; exact he
      exact setup_trace_isSetup E e this
    exact ⟨savedFiles_eq_nil _ (fun e he => (isSetup_facts e (hall e he)).2.2.2),
      decodedPackets_eq_nil _ (fun e he => (isSetup_facts e (hall e he)).2.1)⟩
  obtain ⟨N, hN, hfiles, hdec⟩ := read_loop_files E.decoder hcount hone fuel vsi E.packets 8
    ctx 0 hzero (by omega) (by omega) (by omega)
  unfold main
  rw [hs]
  dsimp only
  rw [savedFiles_append, decodedPackets_append, hsetup.1, hsetup.2]
  refine ⟨N, by omega, hfiles, hdec, ?_⟩
  intro hfuel
  rw [read_loop_finishes E.decoder fuel vsi
    (decode_packet_returns_one_frame E.decoder hone fuel hfuel) E.packets 8 ctx]
  rfl

theorem oneFrameDecoder_counts : CountsFrames oneFrameDecoder := by
  refine ⟨fun ctx p => rfl, ?_, ?_⟩
  · intro ctx h
    cases hp : ctx.pending with
    | zero =>
      simp only [oneFrameDecoder, hp] at h
      exact absurd h (by decide)
    | succ n => simp only [oneFrameDecoder, hp]
  · intro ctx h
    cases hp : ctx.pending with
    | zero => simp only [oneFrameDecoder, hp]
    | succ n =>
      simp only [oneFrameDecoder, hp] at h
      exact absurd h (by decide)

theorem oneFrameDecoder_one_at_a_time : OneFrameAtATime oneFrameDecoder := by
  intro ctx h
  cases hp : ctx.pending with
  | zero =>
    simp only [oneFrameDecoder, hp] at h
    exact absurd h (by decide)
  | succ n =>
    simp only [oneFrameDecoder, hp]
    decide

/-- Witness for C9 (amended): six video packets interleaved with six audio
packets, one of the video packets yielding no frame: five files,
`frame-1.pgm` to `frame-5.pgm`. -/
theorem main_writes_at_most_8_files_witness :
    savedFiles (main (testEnv oneFrameDecoder audioVideo mixedPackets) 5).trace
      = ["frame-1.pgm", "frame-2.pgm", "frame-3.pgm", "frame-4.pgm", "frame-5.pgm"]
    ∧ ∃ N : Nat, N ≤ 8
      ∧ savedFiles (main (testEnv oneFrameDecoder audioVideo mixedPackets) 5).trace
          = frameNames 0 N
      ∧ N ≤ (decodedPackets
          (main (testEnv oneFrameDecoder audioVideo mixedPackets) 5).trace).length
      ∧ (2 ≤ 5 → (main (testEnv oneFrameDecoder audioVideo mixedPackets) 5).ret = some 0) :=
  ⟨by decide,
    main_writes_at_most_8_files (testEnv oneFrameDecoder audioVideo mixedPackets) 5
      1 testCtx0 [Event.avcodec_alloc_context3 (some ⟨2⟩)] rfl rfl
      oneFrameDecoder_counts oneFrameDecoder_one_at_a_time⟩

/-- C9 as stated fails: a container with one video stream and a single
video packet that decodes into 9 frames. `decode_packet` is invoked once and
9 files are written, `frame-1.pgm` to `frame-9.pgm`. -/
theorem main_writes_nine_files :
    (decodedPackets (main (testEnv testDecoder audioVideo [pkt 1 9]) 20).trace).length = 1
    ∧ savedFiles (main (testEnv testDecoder audioVideo [pkt 1 9]) 20).trace
        = frameNames 0 9
    ∧ (savedFiles (main (testEnv testDecoder audioVideo [pkt 1 9]) 20).trace).length = 9
    ∧ ¬ (savedFiles (main (testEnv testDecoder audioVideo [pkt 1 9]) 20).trace).length ≤ 8 := by
  decide

end FFmpegPlayground